import Mathlib

/-!
Verification model of the client-side data-access layer (`AirtableService`)
of the event-management application, together with the string/date helpers
it relies on.  The JavaScript string primitives used by the service
(`trim`, `toLowerCase`, `split`, `parseInt`, the literal regexes) are
modelled character-by-character over their ASCII fragment; machine numbers
from the source are modelled as `Int`/`Nat`.
-/

set_option maxRecDepth 10000

/-! ## Character classes and basic JS string primitives -/

/-- Digit class of the JS regexes (ASCII digits). -/
def isDigitJS (c : Char) : Bool := '0' ≤ c && c ≤ '9'

/-- Whitespace class used by JS `trim` and the regex class, restricted to
its ASCII members (space, tab, newline, carriage return, vertical tab,
form feed). -/
def isWsJS (c : Char) : Bool :=
  c = ' ' || c = '\t' || c = '\n' || c = '\x0d' || c = '\x0b' || c = '\x0c'

/-- JS `String.prototype.trim`: drop leading and trailing whitespace. -/
def trimJS (s : String) : String :=
  String.mk (((s.data.dropWhile isWsJS).reverse.dropWhile isWsJS).reverse)

/-- ASCII case folding of one character: model of what JS `toLowerCase`
does on the ASCII range. -/
def lcChar (c : Char) : Char :=
  if 'A' ≤ c && c ≤ 'Z' then Char.ofNat (c.toNat + 32) else c

/-- JS `String.prototype.toLowerCase` (ASCII fragment). -/
def lcStr (s : String) : String := String.mk (s.data.map lcChar)

/-- JS `String.prototype.split` with a one-character separator. -/
def splitChar (sep : Char) : List Char → List (List Char)
  | [] => [[]]
  | c :: rest =>
    match splitChar sep rest with
    | [] => [[]]
    | g :: gs => if c = sep then [] :: g :: gs else (c :: g) :: gs

/-- Character of a decimal digit value (values `0..9`). -/
def digitChar : Nat → Char
  | 0 => '0' | 1 => '1' | 2 => '2' | 3 => '3' | 4 => '4'
  | 5 => '5' | 6 => '6' | 7 => '7' | 8 => '8' | _ => '9'

/-- Decimal digits of a natural number, most significant first
(fuel-driven so the recursion is structural). -/
def natToCharsAux : Nat → Nat → List Char
  | 0, _ => []
  | fuel + 1, n =>
    if n < 10 then [digitChar n]
    else natToCharsAux fuel (n / 10) ++ [digitChar (n % 10)]

/-- Decimal rendering of a natural number, as JS template interpolation
renders a nonnegative number. -/
def natToChars (n : Nat) : List Char := natToCharsAux (n + 1) n

/-- Numeric value of a list of decimal digit characters. -/
def charsVal (l : List Char) : Nat :=
  l.foldl (fun acc c => acc * 10 + (c.toNat - 48)) 0

/-- Left-pad a digit string with zeros to width 2 (used when the
application formats months, days, hours, minutes). -/
def pad2C (n : Nat) : List Char :=
  if n < 10 then '0' :: natToChars n else natToChars n

/-- Left-pad a digit string with zeros to width 4 (year formatting). -/
def pad4C (n : Nat) : List Char :=
  List.replicate (4 - (natToChars n).length) '0' ++ natToChars n

/-- Format a `YYYY-MM-DD` date string. -/
def fmtYMD (y m d : Nat) : String :=
  String.mk (pad4C y ++ '-' :: pad2C m ++ '-' :: pad2C d)

/-- Format an `HH:MM` time string. -/
def fmtHM (hh mi : Nat) : String :=
  String.mk (pad2C hh ++ ':' :: pad2C mi)

/-- JS `parseInt` in base 10: skip leading whitespace, optional sign,
then a nonempty run of digits; `none` models `NaN`. -/
def jsParseInt (s : String) : Option Int :=
  let l := s.data.dropWhile isWsJS
  let (neg, l') : Bool × List Char :=
    match l with
    | '-' :: r => (true, r)
    | '+' :: r => (false, r)
    | r => (false, r)
  let ds := l'.takeWhile isDigitJS
  if ds.isEmpty then none
  else some (if neg then -(charsVal ds : Int) else (charsVal ds : Int))

/-- Decimal rendering of an integer (JS template interpolation). -/
def intToChars (n : Int) : List Char :=
  if n < 0 then '-' :: natToChars (-n).toNat else natToChars n.toNat

/-- How JS renders `parseInt(s)` inside a template literal: the number, or
the string `NaN`. -/
def jsParseIntRender (s : String) : String :=
  match jsParseInt s with
  | some n => String.mk (intToChars n)
  | none => "NaN"

/-! ## Literal-pattern scanning (the service's regexes)

The source uses three literal regexes on descriptions:
`/Event Time:\s*(\d{2}:\d{2})/` (extraction), `/\n\nEvent Time:\s*\d{2}:\d{2}/`
(removal) and the substring test `includes('Event Time:')`.  Because the
whitespace class and the digit class are disjoint, the greedy `\s*` never
backtracks, so the following deterministic scanners implement exactly the
regex semantics. -/

/-- Strip a literal pattern from the front of a list: `some rest` when the
pattern is an initial run of the list. -/
def stripPre : List Char → List Char → Option (List Char)
  | [], l => some l
  | _ :: _, [] => none
  | p :: ps, c :: cs => if c = p then stripPre ps cs else none

/-- Substring occurrence test (JS `includes`). -/
def containsSub (pat : List Char) : List Char → Bool
  | [] => (stripPre pat []).isSome
  | c :: rest => (stripPre pat (c :: rest)).isSome || containsSub pat rest

/-- Match `\d{2}:\d{2}` at the head of the list, returning the five
matched characters. -/
def matchTimeAt : List Char → Option (List Char)
  | a :: b :: c :: d :: e :: _ =>
    if isDigitJS a && isDigitJS b && c = ':' && isDigitJS d && isDigitJS e
    then some [a, b, c, d, e] else none
  | _ => none

/-- Match `<pat>\s*\d{2}:\d{2}` at the head of the list; returns the
captured `HH:MM` characters and the total matched length. -/
def matchMarkerAt (pat : List Char) (l : List Char) : Option (List Char × Nat) :=
  match stripPre pat l with
  | none => none
  | some r =>
    match matchTimeAt (r.dropWhile isWsJS) with
    | none => none
    | some cap => some (cap, pat.length + (r.takeWhile isWsJS).length + 5)

/-- Leftmost match of `<pat>\s*\d{2}:\d{2}` in a list: start index,
capture, and matched length. -/
def findMarker (pat : List Char) : List Char → Option (Nat × List Char × Nat)
  | [] =>
    match matchMarkerAt pat [] with
    | some (cap, len) => some (0, cap, len)
    | none => none
  | c :: rest =>
    match matchMarkerAt pat (c :: rest) with
    | some (cap, len) => some (0, cap, len)
    | none => (findMarker pat rest).map fun x => (x.1 + 1, x.2)

/-- The literal `Event Time:` of the extraction regex and of `includes`. -/
def etPat : List Char := "Event Time:".data

/-- The literal `\n\nEvent Time:` of the removal regex. -/
def nlPat : List Char := '\n' :: '\n' :: etPat

/-- First capture of `/Event Time:\s*(\d{2}:\d{2})/` in a string. -/
def extractTime (s : String) : Option String :=
  (findMarker etPat s.data).map fun x => String.mk x.2.1

/-- JS `replace(/\n\nEvent Time:\s*\d{2}:\d{2}/, '')`: remove the leftmost
match, if any. -/
def replaceFirstNl (s : String) : String :=
  match findMarker nlPat s.data with
  | some (i, _, len) => String.mk (s.data.take i ++ s.data.drop (i + len))
  | none => s

/-! ## The service's validation regexes -/

/-- Full-string match of `/^\d{4}-\d{2}-\d{2}$/`. -/
def matchYMDb (s : String) : Bool :=
  match s.data with
  | [a, b, c, d, h1, e, f, h2, g, h] =>
    isDigitJS a && isDigitJS b && isDigitJS c && isDigitJS d && h1 = '-' &&
    isDigitJS e && isDigitJS f && h2 = '-' && isDigitJS g && isDigitJS h
  | _ => false

/-- Full-string match of `/^rec[a-zA-Z0-9]{14}$/`, the store's record-ID
pattern. -/
def idPattern (s : String) : Bool :=
  match s.data with
  | 'r' :: 'e' :: 'c' :: rest =>
    rest.length = 14 && rest.all fun c =>
      isDigitJS c || ('a' ≤ c && c ≤ 'z') || ('A' ≤ c && c ≤ 'Z')
  | _ => false

/-- All decompositions `(take i, drop i)` of a list. -/
def splitsList (l : List Char) : List (List Char × List Char) :=
  (List.range (l.length + 1)).map fun i => (l.take i, l.drop i)

/-- Character class `[^\s@]` of the email regex. -/
def emailOkChar (c : Char) : Bool := !isWsJS c && c ≠ '@'

/-- Full-string match of `/^[^\s@]+@[^\s@]+\.[^\s@]+$/`, with the regex's
backtracking expressed as a search over all split points. -/
def jsEmailTest (s : String) : Bool :=
  (splitsList s.data).any fun p =>
    !p.1.isEmpty && p.1.all emailOkChar &&
    (match p.2 with
     | '@' :: b =>
       (splitsList b).any fun q =>
         !q.1.isEmpty && q.1.all emailOkChar &&
         (match q.2 with
          | '.' :: d => !d.isEmpty && d.all emailOkChar
          | _ => false)
     | _ => false)

/-! ## Calendar arithmetic (model of JS `Date`)

Instants are modelled as milliseconds on the client's local-time axis, so
that the comparisons the service performs (`new Date(...) < new Date()`,
cache-age differences) are independent of the UTC offset; the offset
`Env.tz` (minutes, local = UTC + tz) only enters where the code converts a
local calendar date to an ISO (UTC) string. -/

/-- Gregorian leap-year test. -/
def isLeap (y : Nat) : Bool := (y % 4 = 0 && y % 100 ≠ 0) || y % 400 = 0

/-- Days in a month. -/
def daysInMonth (y m : Nat) : Nat :=
  if m = 2 then (if isLeap y then 29 else 28)
  else if m = 4 || m = 6 || m = 9 || m = 11 then 30 else 31

/-- Days from the civil epoch 1970-01-01 (Hinnant's `days_from_civil`). -/
def daysFromCivil (y : Int) (m d : Nat) : Int :=
  let y' : Int := if m ≤ 2 then y - 1 else y
  let era : Int := y'.fdiv 400
  let yoe : Nat := (y' - era * 400).toNat
  let mp : Nat := if m > 2 then m - 3 else m + 9
  let doy : Nat := (153 * mp + 2) / 5 + d - 1
  let doe : Nat := yoe * 365 + yoe / 4 - yoe / 100 + doy
  era * 146097 + (doe : Int) - 719468

/-- Civil date from days since 1970-01-01 (Hinnant's `civil_from_days`);
only used for the code's fallback of stamping "today". -/
def civilFromDays (z0 : Int) : Int × Nat × Nat :=
  let z : Int := z0 + 719468
  let era : Int := z.fdiv 146097
  let doe : Nat := (z - era * 146097).toNat
  let yoe : Nat := (doe - doe / 1460 + doe / 36524 - doe / 146096) / 365
  let y : Int := era * 400 + yoe
  let doy : Nat := doe - (365 * yoe + yoe / 4 - yoe / 100)
  let mp : Nat := (5 * doy + 2) / 153
  let d : Nat := doy - (153 * mp + 2) / 5 + 1
  let m : Nat := if mp < 10 then mp + 3 else mp - 9
  (if m ≤ 2 then y + 1 else y, m, d)

/-- Calendar validity of a year/month/day triple. -/
def validYMD (y m d : Nat) : Bool :=
  1 ≤ m && m ≤ 12 && 1 ≤ d && d ≤ daysInMonth y m

/-- The previous civil day. -/
def prevDay (y m d : Nat) : Nat × Nat × Nat :=
  if d > 1 then (y, m, d - 1)
  else if m > 1 then (y, m - 1, daysInMonth y (m - 1))
  else (y - 1, 12, 31)

/-- Model of `new Date(s).toISOString().split('T')[0]` for the legacy
`M/D/YYYY` strings the service writes: parsed as local midnight, rendered
back in UTC.  The parse is modelled only for in-range calendar dates
(out-of-range slash dates are treated as an invalid `Date`); offsets are
assumed within one day (`|tz| < 1440` minutes). -/
def jsParseDateToISO (s : String) (tz : Int) : Option String :=
  match splitChar '/' s.data with
  | [ms, ds, ys] =>
    if (!ms.isEmpty && ms.all isDigitJS) &&
       (!ds.isEmpty && ds.all isDigitJS) &&
       (!ys.isEmpty && ys.all isDigitJS) then
      let m := charsVal ms
      let d := charsVal ds
      let y := charsVal ys
      if validYMD y m d then
        if tz > 0 then
          match prevDay y m d with
          | (y', m', d') => some (fmtYMD y' m' d')
        else some (fmtYMD y m d)
      else none
    else none
  | _ => none

/-- Local-time milliseconds of `new Date(date + 'T' + time)` for a
well-formed `YYYY-MM-DD` date and `HH:MM` time; `none` models an invalid
`Date` (whose comparisons are all false). -/
def jsLocalDateTimeMs (date time : String) : Option Int :=
  match date.data, time.data with
  | [y1, y2, y3, y4, h1, m1, m2, h2, d1, d2], [t1, t2, c, t3, t4] =>
    if isDigitJS y1 && isDigitJS y2 && isDigitJS y3 && isDigitJS y4 &&
       h1 = '-' && isDigitJS m1 && isDigitJS m2 && h2 = '-' &&
       isDigitJS d1 && isDigitJS d2 && isDigitJS t1 && isDigitJS t2 &&
       c = ':' && isDigitJS t3 && isDigitJS t4 then
      let y := charsVal [y1, y2, y3, y4]
      let m := charsVal [m1, m2]
      let d := charsVal [d1, d2]
      let hh := charsVal [t1, t2]
      let mi := charsVal [t3, t4]
      if validYMD y m d && hh ≤ 23 && mi ≤ 59 then
        some ((daysFromCivil (y : Int) m d * 1440 + (hh * 60 + mi : Nat)) * 60000)
      else none
    else none
  | _, _ => none

/-- ISO date of "now" in UTC (the code's fallback when a stored event has
no date), from a local-milliseconds instant and the UTC offset. -/
def nowISODate (now tz : Int) : String :=
  match civilFromDays ((now - tz * 60000).fdiv 86400000) with
  | (y, m, d) => fmtYMD y.toNat m d

/-! ## Data model

Application entities, store records and request shapes, following
`src/types/index.ts` and the Airtable field interfaces of
`src/services/airtableService.ts`. -/

/-- The closed error taxonomy (`ErrorType` in `types/index.ts`). -/
inductive ErrType
  | NETWORK_ERROR | VALIDATION_ERROR | RATE_LIMIT_ERROR
  | NOT_FOUND_ERROR | CAPACITY_EXCEEDED
  deriving DecidableEq, Repr

/-- The `AppError` class: classified type, message, optional HTTP status. -/
structure AppError where
  type : ErrType
  message : String
  statusCode : Option Nat := none
  deriving DecidableEq, Repr

/-- RSVP status (the union type `'confirmed' | 'cancelled'`). -/
inductive RStatus
  | confirmed | cancelled
  deriving DecidableEq, Repr

/-- `AirtableEventFields` (the optional `time` field is never read by the
transform and never written by `createEvent`, so it is omitted). -/
structure EventFields where
  title : String
  description : String
  date : String
  location : String
  capacity : Int
  organizer_id : String
  created_at : Option String := none
  updated_at : Option String := none
  deriving DecidableEq, Repr

/-- `AirtableRSVPFields`. -/
structure RSVPFields where
  event_id : String
  attendee_name : String
  attendee_email : String
  status : RStatus
  created_at : Option String := none
  updated_at : Option String := none
  deriving DecidableEq, Repr

/-- `AirtableOrganizerFields`. -/
structure OrganizerFields where
  name : String
  email : String
  created_at : Option String := none
  deriving DecidableEq, Repr

/-- An Airtable record: store-generated id, fields, creation time. -/
structure Rec (α : Type) where
  id : String
  fields : α
  createdTime : String
  deriving DecidableEq, Repr

/-- The application `Event` entity. -/
structure Event where
  id : String
  title : String
  description : String
  date : String
  time : String
  location : String
  capacity : Int
  organizerId : String
  createdAt : String
  updatedAt : String
  shareLink : String
  deriving DecidableEq, Repr

/-- The application `RSVP` entity. -/
structure RSVP where
  id : String
  eventId : String
  attendeeName : String
  attendeeEmail : String
  status : RStatus
  createdAt : String
  updatedAt : String
  deriving DecidableEq, Repr

/-- The application `Organizer` entity. -/
structure Organizer where
  id : String
  name : String
  email : String
  createdAt : String
  deriving DecidableEq, Repr

/-- `CreateEventRequest`. -/
structure CreateEventRequest where
  title : String
  description : String
  date : String
  time : String
  location : String
  capacity : Int
  organizerId : String
  deriving DecidableEq, Repr

/-- `CreateRSVPRequest`. -/
structure CreateRSVPRequest where
  eventId : String
  attendeeName : String
  attendeeEmail : String
  deriving DecidableEq, Repr

/-- `UpdateRSVPRequest`. -/
structure UpdateRSVPRequest where
  status : Option RStatus := none
  deriving DecidableEq, Repr

/-- The external record store: one table per collection, plus a counter
from which fresh record ids are generated.  Records are listed in
insertion order; the list operations the service issues sort ascending by
creation time, which coincides with insertion order here. -/
structure Store where
  events : List (Rec EventFields) := []
  rsvps : List (Rec RSVPFields) := []
  organizers : List (Rec OrganizerFields) := []
  nextId : Nat := 0
  deriving DecidableEq, Repr

/-- A fresh store-generated record id, shaped to satisfy `idPattern`. -/
def genId (n : Nat) : String :=
  String.mk ('r' :: 'e' :: 'c' ::
    (List.replicate (14 - (natToChars n).length) '0' ++ natToChars n))

/-! ## Client cache (`SimpleCache` of `utils/performance.ts`)

One map from string keys to value-plus-timestamp; the three key shapes the
service uses are disjoint by their textual forms, which the typed key
models.  An expired entry reads as a miss (the source also deletes it,
which no later read can observe). -/

/-- The cache keys used by the service. -/
inductive CacheKey
  | evKey (id : String)
  | rsvpsOf (id : String)
  | orgEvents (id : String)
  deriving DecidableEq, Repr

/-- Cached payloads. -/
inductive CacheVal
  | eventVal (e : Event)
  | rsvpList (l : List RSVP)
  | eventList (l : List Event)
  deriving DecidableEq, Repr

/-- One cache slot. -/
structure CacheEntry where
  key : CacheKey
  val : CacheVal
  timestamp : Int
  deriving DecidableEq, Repr

/-- The cache: an association list with at most one live entry per key. -/
abbrev Cache := List CacheEntry

/-- The 5-minute time-to-live, in milliseconds. -/
def cacheTTL : Int := 300000

/-- `SimpleCache.get`: a hit only when present and at most TTL old. -/
def cacheGet (c : Cache) (now : Int) (k : CacheKey) : Option CacheVal :=
  match c.find? fun e => e.key = k with
  | some e => if now - e.timestamp > cacheTTL then none else some e.val
  | none => none

/-- `SimpleCache.set`: overwrite the slot with a fresh timestamp. -/
def cacheSet (c : Cache) (now : Int) (k : CacheKey) (v : CacheVal) : Cache :=
  ⟨k, v, now⟩ :: c.filter fun e => ¬e.key = k

/-- `SimpleCache.delete`. -/
def cacheDelete (c : Cache) (k : CacheKey) : Cache :=
  c.filter fun e => ¬e.key = k

/-! ## Circuit breaker and retry wrapper -/

/-- Circuit-breaker states. -/
inductive CircuitState
  | CLOSED | OPEN | HALF_OPEN
  deriving DecidableEq, Repr

/-- Circuit-breaker mutable state of the service instance. -/
structure CB where
  state : CircuitState := .CLOSED
  failureCount : Nat := 0
  lastFailureTime : Int := 0
  deriving DecidableEq, Repr

/-- The breaker's thresholds from the source: 5 failures, 60 s recovery. -/
def failureThreshold : Nat := 5

/-- Recovery timeout in milliseconds. -/
def recoveryTimeout : Int := 60000

/-- `checkCircuitBreaker`: throw while open and young, transition to
half-open when the recovery timeout has elapsed. -/
def checkCB (cb : CB) (now : Int) : Except AppError CB :=
  match cb.state with
  | .OPEN =>
    if now - cb.lastFailureTime ≥ recoveryTimeout then
      .ok { cb with state := .HALF_OPEN }
    else
      .error ⟨.NETWORK_ERROR,
        "Service temporarily unavailable due to repeated failures. Please try again later.", none⟩
  | .HALF_OPEN => .ok cb
  | .CLOSED => .ok cb

/-- `recordSuccess`. -/
def recordSuccess (cb : CB) : CB :=
  if cb.state = .HALF_OPEN then
    { cb with state := .CLOSED, failureCount := 0 }
  else if cb.state = .CLOSED ∧ cb.failureCount > 0 then
    { cb with failureCount := 0 }
  else cb

/-- `recordFailure`. -/
def recordFailure (cb : CB) (now : Int) : CB :=
  if cb.failureCount + 1 ≥ failureThreshold then
    { cb with failureCount := cb.failureCount + 1, lastFailureTime := now,
              state := .OPEN }
  else
    { cb with failureCount := cb.failureCount + 1, lastFailureTime := now }

/-- `isRetryableError`. -/
def isRetryableError (e : AppError) : Bool :=
  match e.type with
  | .RATE_LIMIT_ERROR => true
  | .NETWORK_ERROR =>
    match e.statusCode with
    | none => true
    | some s => s ≥ 500
  | _ => false

/-- Ambient environment of a call: the local-time instant `now`
(milliseconds), the UTC offset `tz` (minutes, local = UTC + tz), and the
browser origin for share links. -/
structure Env where
  now : Int := 0
  tz : Int := 0
  origin : Option String := none
  deriving DecidableEq, Repr

/-- Full mutable state visible to the service: the external store, the
client cache, the breaker, and a count of HTTP calls issued (for stating
"no network call" properties). -/
structure St where
  store : Store := {}
  cache : Cache := []
  cb : CB := {}
  net : Nat := 0
  deriving DecidableEq, Repr

/-- Result of an operation: a classified success-or-error plus the state
after the call. -/
structure Res (α : Type) where
  val : Except AppError α
  st : St
  deriving Repr

/-- The service's `maxRetries` field. -/
def maxRetries : Nat := 3

/-- `retryRequest`: check the breaker, run the body, record the outcome,
and recurse on retryable failures while fuel remains.  The backoff delays
of the source only pause execution, so the model keeps `now` fixed across
the retries of one call. -/
def wrappedRun (env : Env) : Nat → St → (St → Res α) → Res α
  | fuel, st, body =>
    match checkCB st.cb env.now with
    | .error e => ⟨.error e, st⟩
    | .ok cb' =>
      let r := body { st with cb := cb' }
      match r.val with
      | .ok a => ⟨.ok a, { r.st with cb := recordSuccess r.st.cb }⟩
      | .error e =>
        let st₂ := { r.st with cb := recordFailure r.st.cb env.now }
        match fuel with
        | 0 => ⟨.error e, st₂⟩
        | fuel' + 1 =>
          if isRetryableError e then wrappedRun env fuel' st₂ body
          else ⟨.error e, st₂⟩

/-- One wrapped attempt viewed only through the breaker: circuit check,
then the operation's success or failure recorded.  The `Bool` reports
whether the operation was attempted at all. -/
def cbAttempt (cb : CB) (now : Int) (success : Bool) : CB × Bool :=
  match checkCB cb now with
  | .error _ => (cb, false)
  | .ok cb' => (if success then recordSuccess cb' else recordFailure cb' now, true)

/-- Fold a schedule of attempts (time, outcome) through the breaker. -/
def cbRun (cb : CB) : List (Int × Bool) → CB
  | [] => cb
  | (t, o) :: rest => cbRun (cbAttempt cb t o).1 rest

/-! ## Field mapper (`transform*FromAirtable`) -/

/-- `transformEventFromAirtable`: normalize the date, pull the embedded
`Event Time: HH:MM` marker out of the description (default `10:00`), strip
the marker from the description, and assemble the entity. -/
def transformEventFromAirtable (env : Env) (r : Rec EventFields) : Event :=
  let date : String :=
    if r.fields.date = "" then nowISODate env.now env.tz
    else if matchYMDb r.fields.date then r.fields.date
    else
      match jsParseDateToISO r.fields.date env.tz with
      | some d => d
      | none => r.fields.date
  let time : String :=
    if containsSub etPat r.fields.description.data then
      match extractTime r.fields.description with
      | some t => t
      | none => "10:00"
    else "10:00"
  let cleanDescription : String :=
    if containsSub etPat r.fields.description.data then
      trimJS (replaceFirstNl r.fields.description)
    else r.fields.description
  { id := r.id
    title := r.fields.title
    description := cleanDescription
    date := date
    time := time
    location := r.fields.location
    capacity := r.fields.capacity
    organizerId := r.fields.organizer_id
    createdAt := r.fields.created_at.getD r.createdTime
    updatedAt := r.fields.updated_at.getD r.createdTime
    shareLink := (match env.origin with | some o => o | none => "") ++ "/events/" ++ r.id }

/-- `transformRSVPFromAirtable`. -/
def transformRSVPFromAirtable (r : Rec RSVPFields) : RSVP :=
  { id := r.id
    eventId := r.fields.event_id
    attendeeName := r.fields.attendee_name
    attendeeEmail := r.fields.attendee_email
    status := r.fields.status
    createdAt := r.fields.created_at.getD r.createdTime
    updatedAt := r.fields.updated_at.getD r.createdTime }

/-- `transformOrganizerFromAirtable`. -/
def transformOrganizerFromAirtable (r : Rec OrganizerFields) : Organizer :=
  { id := r.id
    name := r.fields.name
    email := r.fields.email
    createdAt := r.fields.created_at.getD r.createdTime }

/-! ## Domain operations

Each operation is the body of the corresponding `AirtableService` method,
with the HTTP round-trips replaced by direct reads/writes of the `Store`
(every issued call bumps `St.net`) and every `retryRequest` wrapper made
explicit.  In this failure-free transport model a request that reaches the
store always succeeds, so the `handleApiError` classification appears only
at the points where the code itself raises (404 on a missing id, local
validation, capacity). -/

/-- `getEvent`: local ID-syntax validation (no network), cache, then the
wrapped fetch with the 404-to-friendly-not-found remapping and the
integrity check on the transformed entity. -/
def getEvent (env : Env) (st : St) (eventId : String) : Res Event :=
  if eventId = "" ∨ trimJS eventId = "" then
    ⟨.error ⟨.VALIDATION_ERROR, "Invalid event ID provided", none⟩, st⟩
  else if ¬idPattern eventId then
    ⟨.error ⟨.NOT_FOUND_ERROR, "Invalid event link. Please check the URL and try again.", none⟩, st⟩
  else
    match cacheGet st.cache env.now (.evKey eventId) with
    | some (.eventVal e) => ⟨.ok e, st⟩
    | _ =>
      wrappedRun env maxRetries st fun st₁ =>
        let st₂ := { st₁ with net := st₁.net + 1 }
        match st₂.store.events.find? fun r => r.id = eventId with
        | none =>
          ⟨.error ⟨.NOT_FOUND_ERROR,
            "Event not found. It may have been deleted or the link is incorrect.", none⟩, st₂⟩
        | some r =>
          let event := transformEventFromAirtable env r
          if event.title = "" ∨ event.date = "" ∨ event.time = "" then
            ⟨.error ⟨.VALIDATION_ERROR, "Event data is incomplete or corrupted", none⟩, st₂⟩
          else
            ⟨.ok event,
             { st₂ with cache := cacheSet st₂.cache env.now (.evKey eventId) (.eventVal event) }⟩

/-- `getRSVPsByEvent`: cache, then the wrapped filtered list call (the
store sorts ascending by creation time, i.e. insertion order). -/
def getRSVPsByEvent (env : Env) (st : St) (eventId : String) : Res (List RSVP) :=
  match cacheGet st.cache env.now (.rsvpsOf eventId) with
  | some (.rsvpList l) => ⟨.ok l, st⟩
  | _ =>
    wrappedRun env maxRetries st fun st₁ =>
      let st₂ := { st₁ with net := st₁.net + 1 }
      let rsvps := (st₂.store.rsvps.filter fun r => r.fields.event_id = eventId).map
        transformRSVPFromAirtable
      ⟨.ok rsvps,
       { st₂ with cache := cacheSet st₂.cache env.now (.rsvpsOf eventId) (.rsvpList rsvps) }⟩

/-- Replace the fields of the record with the given id (store-side PATCH;
record ids are unique in the store). -/
def patchRSVPRecs : List (Rec RSVPFields) → String → RSVPFields → List (Rec RSVPFields)
  | [], _, _ => []
  | r :: rest, i, f =>
    if r.id = i then { r with fields := f } :: rest
    else r :: patchRSVPRecs rest i f

/-- `updateRSVP`: wrapped PATCH of the status field.  Note: no cache
invalidation of any kind. -/
def updateRSVP (env : Env) (st : St) (rsvpId : String) (upd : UpdateRSVPRequest) : Res RSVP :=
  wrappedRun env maxRetries st fun st₁ =>
    let st₂ := { st₁ with net := st₁.net + 1 }
    match st₂.store.rsvps.find? fun r => r.id = rsvpId with
    | none =>
      ⟨.error ⟨.NOT_FOUND_ERROR,
        "The requested resource was not found. It may have been deleted or moved.", some 404⟩, st₂⟩
    | some r =>
      let fields :=
        match upd.status with
        | some s2 => { r.fields with status := s2 }
        | none => r.fields
      ⟨.ok (transformRSVPFromAirtable { r with fields := fields }),
       { st₂ with store :=
           { st₂.store with rsvps := patchRSVPRecs st₂.store.rsvps rsvpId fields } }⟩

/-- The event-is-in-the-past test of `createRSVP`
(`new Date(date + 'T' + time) < new Date()`; an invalid date compares
false). -/
def isPastEvent (env : Env) (ev : Event) : Bool :=
  match jsLocalDateTimeMs ev.date ev.time with
  | some t => t < env.now
  | none => false

/-- The body of `createRSVP` (the part inside its `retryRequest`): local
validation, event lookup, past check, best-effort first read, first
capacity check, duplicate detection with reactivation, second read and
capacity check, then the insert and cache invalidation.  The reactivation
branch returns the `updateRSVP` result directly, without reaching the
cache invalidation below. -/
def createRSVPBody (env : Env) (req : CreateRSVPRequest) (st : St) : Res RSVP :=
  if req.eventId.isEmpty || req.attendeeName.isEmpty || req.attendeeEmail.isEmpty then
    ⟨.error ⟨.VALIDATION_ERROR, "Missing required RSVP information", none⟩, st⟩
  else if !jsEmailTest req.attendeeEmail then
    ⟨.error ⟨.VALIDATION_ERROR, "Please provide a valid email address", none⟩, st⟩
  else
    match getEvent env st req.eventId with
    | ⟨.error e, st₁⟩ =>
      if e.type = .NOT_FOUND_ERROR then
        ⟨.error ⟨.NOT_FOUND_ERROR, "This event no longer exists or the link is invalid", none⟩, st₁⟩
      else ⟨.error e, st₁⟩
    | ⟨.ok event, st₁⟩ =>
      if isPastEvent env event then
        ⟨.error ⟨.VALIDATION_ERROR, "Cannot RSVP to past events", none⟩, st₁⟩
      else
        -- best-effort read: a failure is swallowed and treated as "no RSVPs"
        let firstRead := getRSVPsByEvent env st₁ req.eventId
        let existingRSVPs := match firstRead.val with | .ok l => l | .error _ => []
        let st₂ := firstRead.st
        let confirmedRSVPs := existingRSVPs.filter fun r => r.status = .confirmed
        if (confirmedRSVPs.length : Int) ≥ event.capacity then
          ⟨.error ⟨.CAPACITY_EXCEEDED,
            "This event is now at full capacity. No more RSVPs can be accepted.", none⟩, st₂⟩
        else
          match existingRSVPs.find? fun r => lcStr r.attendeeEmail = lcStr req.attendeeEmail with
          | some ex =>
            if ex.status = .confirmed then
              ⟨.error ⟨.VALIDATION_ERROR, "You have already RSVPd to this event", none⟩, st₂⟩
            else
              -- `status` is two-valued, so the source's `else if cancelled`
              -- branch is exactly this `else`
              updateRSVP env st₂ ex.id ⟨some .confirmed⟩
          | none =>
            match getRSVPsByEvent env st₂ req.eventId with
            | ⟨.error e, st₃⟩ => ⟨.error e, st₃⟩
            | ⟨.ok latest, st₃⟩ =>
              if ((latest.filter fun r => r.status = .confirmed).length : Int) ≥ event.capacity then
                ⟨.error ⟨.CAPACITY_EXCEEDED,
                  "This event just reached full capacity. Please try another event.", none⟩, st₃⟩
              else
                let fields : RSVPFields :=
                  { event_id := req.eventId
                    attendee_name := trimJS req.attendeeName
                    attendee_email := trimJS (lcStr req.attendeeEmail)
                    status := .confirmed }
                let newRec : Rec RSVPFields := ⟨genId st₃.store.nextId, fields, "0"⟩
                let st₄ :=
                  { st₃ with
                    store := { st₃.store with
                                 rsvps := st₃.store.rsvps ++ [newRec],
                                 nextId := st₃.store.nextId + 1 },
                    net := st₃.net + 1 }
                ⟨.ok (transformRSVPFromAirtable newRec),
                 { st₄ with cache := cacheDelete st₄.cache (.rsvpsOf req.eventId) }⟩

/-- `createRSVP`: the body under the resilience wrapper. -/
def createRSVP (env : Env) (st : St) (req : CreateRSVPRequest) : Res RSVP :=
  wrappedRun env maxRetries st (createRSVPBody env req)

/-- `getOrganizerByEmail`: wrapped filtered list call (exact match). -/
def getOrganizerByEmail (env : Env) (st : St) (email : String) : Res (List Organizer) :=
  wrappedRun env maxRetries st fun st₁ =>
    let st₂ := { st₁ with net := st₁.net + 1 }
    ⟨.ok ((st₂.store.organizers.filter fun r => r.fields.email = email).map
      transformOrganizerFromAirtable), st₂⟩

/-- `createOrganizer`: look up by email first (idempotent by email),
otherwise insert. -/
def createOrganizer (env : Env) (st : St) (name email : String) : Res Organizer :=
  wrappedRun env maxRetries st fun st₁ =>
    match getOrganizerByEmail env st₁ email with
    | ⟨.error e, st₂⟩ => ⟨.error e, st₂⟩
    | ⟨.ok existing, st₂⟩ =>
      match existing with
      | o :: _ => ⟨.ok o, st₂⟩
      | [] =>
        let fields : OrganizerFields := { name := name, email := email }
        let newRec : Rec OrganizerFields := ⟨genId st₂.store.nextId, fields, "0"⟩
        let st₃ :=
          { st₂ with
            store := { st₂.store with
                         organizers := st₂.store.organizers ++ [newRec],
                         nextId := st₂.store.nextId + 1 },
            net := st₂.net + 1 }
        ⟨.ok (transformOrganizerFromAirtable newRec), st₃⟩

/-- The body of `createEvent`: resolve a placeholder organizer (failures
swallowed), convert the date to the store's `M/D/YYYY` form via
`parseInt`, embed the time in the description, insert, transform back and
invalidate the organizer's event-list cache entry. -/
def createEventBody (env : Env) (req : CreateEventRequest) (st : St) : Res Event :=
  let resolved : String × St :=
    if req.organizerId = "temp-organizer-id" then
      match createOrganizer env st "Event Organizer" "organizer@example.com" with
      | ⟨.ok o, st'⟩ => (o.id, st')
      | ⟨.error _, st'⟩ => (req.organizerId, st')
    else (req.organizerId, st)
  match resolved with
  | (organizerId, st₁) =>
    let dateParts := splitChar '-' req.date.data
    let eventDate : String :=
      jsParseIntRender (String.mk (dateParts.getD 1 "undefined".data)) ++ "/" ++
      jsParseIntRender (String.mk (dateParts.getD 2 "undefined".data)) ++ "/" ++
      String.mk (dateParts.getD 0 [])
    let fields : EventFields :=
      { title := req.title
        description := req.description ++ "\n\nEvent Time: " ++ req.time
        date := eventDate
        location := req.location
        capacity := req.capacity
        organizer_id := organizerId }
    let newRec : Rec EventFields := ⟨genId st₁.store.nextId, fields, "0"⟩
    let st₂ :=
      { st₁ with
        store := { st₁.store with
                     events := st₁.store.events ++ [newRec],
                     nextId := st₁.store.nextId + 1 },
        net := st₁.net + 1 }
    let event := transformEventFromAirtable env newRec
    ⟨.ok event, { st₂ with cache := cacheDelete st₂.cache (.orgEvents event.organizerId) }⟩

/-- `createEvent`: the body under the resilience wrapper (the
`measurePerformance` wrapper only logs timings). -/
def createEvent (env : Env) (st : St) (req : CreateEventRequest) : Res Event :=
  wrappedRun env maxRetries st (createEventBody env req)

/-- Number of confirmed RSVP rows an event has in the store. -/
def confirmedCount (s : Store) (eventId : String) : Nat :=
  ((s.rsvps.filter fun r => r.fields.event_id = eventId).filter
    fun r => r.fields.status = .confirmed).length

/-! ## Classification helpers used by the claim statements -/

/-- Error classification of a result, if it failed. -/
def resErrType {α : Type} (v : Except AppError α) : Option ErrType :=
  match v with
  | .error e => some e.type
  | .ok _ => none

/-! ## Claim C7: the circuit breaker as a state machine -/

/-- C7.  The breaker stepped by wrapped attempts: 5 consecutive failures
from a clean closed state open it; while open and younger than 60 s every
call fast-fails without attempting the operation; once 60 s have elapsed
the next call is attempted (the half-open trial), a failed trial re-opens
the circuit with a fresh timestamp (so it was exactly one trial), a
successful trial closes it and zeroes the counter; a success while closed
with a nonzero counter also zeroes it. -/
theorem c7_circuit_breaker_machine :
    (∀ (cb : CB) (t₁ t₂ t₃ t₄ t₅ : Int), cb.state = .CLOSED → cb.failureCount = 0 →
      (cbRun cb [(t₁, false), (t₂, false), (t₃, false), (t₄, false), (t₅, false)]).state = .OPEN) ∧
    (∀ (cb : CB) (now : Int) (o : Bool), cb.state = .OPEN →
      now - cb.lastFailureTime < recoveryTimeout → cbAttempt cb now o = (cb, false)) ∧
    (∀ (cb : CB) (now : Int) (o : Bool), cb.state = .OPEN →
      recoveryTimeout ≤ now - cb.lastFailureTime → (cbAttempt cb now o).2 = true) ∧
    (∀ (cb : CB) (now : Int), cb.state = .OPEN → 4 ≤ cb.failureCount →
      recoveryTimeout ≤ now - cb.lastFailureTime →
      (cbAttempt cb now false).1 = ⟨.OPEN, cb.failureCount + 1, now⟩) ∧
    (∀ (cb : CB) (now : Int), cb.state = .OPEN → recoveryTimeout ≤ now - cb.lastFailureTime →
      cbAttempt cb now true = (⟨.CLOSED, 0, cb.lastFailureTime⟩, true)) ∧
    (∀ (cb : CB) (now : Int), cb.state = .HALF_OPEN →
      cbAttempt cb now true = (⟨.CLOSED, 0, cb.lastFailureTime⟩, true)) ∧
    (∀ (cb : CB) (now : Int), cb.state = .CLOSED → 0 < cb.failureCount →
      cbAttempt cb now true = (⟨.CLOSED, 0, cb.lastFailureTime⟩, true)) := by
  refine ⟨?_, ?_, ?_, ?_, ?_, ?_, ?_⟩
  · rintro ⟨s, n, t⟩ t₁ t₂ t₃ t₄ t₅ hs hn
    subst hs; subst hn
    simp [cbRun, cbAttempt, checkCB, recordFailure, failureThreshold]
  · rintro ⟨s, n, t⟩ now o hs h
    subst hs
    simp only [cbAttempt, checkCB] at *
    rw [if_neg (by omega)]
  · rintro ⟨s, n, t⟩ now o hs h
    subst hs
    simp only [cbAttempt, checkCB] at *
    rw [if_pos (by omega)]
  · rintro ⟨s, n, t⟩ now hs hn h
    subst hs
    simp only [cbAttempt, checkCB] at *
    rw [if_pos (by omega)]
    simp [recordFailure, failureThreshold]
    omega
  · rintro ⟨s, n, t⟩ now hs h
    subst hs
    simp only [cbAttempt, checkCB] at *
    rw [if_pos (by omega)]
    simp [recordSuccess]
  · rintro ⟨s, n, t⟩ now hs
    subst hs
    simp [cbAttempt, checkCB, recordSuccess]
  · rintro ⟨s, n, t⟩ now hs hn
    subst hs
    simp [cbAttempt, checkCB, recordSuccess, hn]

/-- Witness for C7: a concrete clean breaker opened by five failures. -/
theorem c7_witness :
    (cbRun ⟨.CLOSED, 0, 0⟩ [(1, false), (2, false), (3, false), (4, false), (5, false)]).state = .OPEN :=
  c7_circuit_breaker_machine.1 ⟨.CLOSED, 0, 0⟩ 1 2 3 4 5 rfl rfl

/-! ## Claim C9: a fast-fail rejection leaves the breaker state unchanged -/

/-- C9.  When the circuit is open and the recovery timeout has not
elapsed, the wrapper rejects before running the body and before any
recording: the whole service state (breaker included) is returned
untouched, with the fast-fail network error. -/
theorem c9_fast_fail_frame {α : Type} (env : Env) (fuel : Nat) (st : St) (body : St → Res α)
    (h1 : st.cb.state = .OPEN) (h2 : env.now - st.cb.lastFailureTime < recoveryTimeout) :
    wrappedRun env fuel st body =
      ⟨.error ⟨.NETWORK_ERROR,
        "Service temporarily unavailable due to repeated failures. Please try again later.", none⟩, st⟩ := by
  have hcb : checkCB st.cb env.now =
      .error ⟨.NETWORK_ERROR,
        "Service temporarily unavailable due to repeated failures. Please try again later.", none⟩ := by
    unfold checkCB
    rw [h1]
    exact if_neg (by omega)
  rw [wrappedRun, hcb]

/-- Witness for C9 at a concrete open breaker and a concrete body. -/
theorem c9_witness :
    wrappedRun { now := 1000 } maxRetries { cb := ⟨.OPEN, 5, 0⟩ } (fun s => ⟨.ok (), s⟩) =
      ⟨.error ⟨.NETWORK_ERROR,
        "Service temporarily unavailable due to repeated failures. Please try again later.", none⟩,
       { cb := ⟨.OPEN, 5, 0⟩ }⟩ :=
  c9_fast_fail_frame { now := 1000 } maxRetries { cb := ⟨.OPEN, 5, 0⟩ } (fun s => ⟨.ok (), s⟩)
    rfl (by decide)

/-! ## Claim C8: retry counting and retryable classification -/

/-- An abstract wrapped operation for stating retry-count properties: each
execution issues one network call (bumping `St.net`) and returns the
outcome scheduled for that call index. -/
def oracleBody (f : Nat → Except AppError Unit) : St → Res Unit :=
  fun st => ⟨f st.net, { st with net := st.net + 1 }⟩

/-- The wrapper executes its operation at most `fuel + 1` times. -/
theorem wrappedRun_oracle_net_le (env : Env) (f : Nat → Except AppError Unit) :
    ∀ (fuel : Nat) (st : St),
      (wrappedRun env fuel st (oracleBody f)).st.net ≤ st.net + fuel + 1 := by
  intro fuel
  induction fuel with
  | zero =>
    intro st
    rw [wrappedRun]
    cases hcb : checkCB st.cb env.now with
    | error e => simp
    | ok cb' =>
      simp only [oracleBody]
      cases hv : f st.net <;> simp
  | succ fuel ih =>
    intro st
    rw [wrappedRun]
    cases hcb : checkCB st.cb env.now with
    | error e =>
      show st.net ≤ st.net + (fuel + 1) + 1
      omega
    | ok cb' =>
      simp only [oracleBody]
      cases hv : f st.net with
      | ok a => simp
      | error e =>
        simp only []
        split
        · calc (wrappedRun env fuel _ (oracleBody f)).st.net
              ≤ _ := ih _
          _ ≤ st.net + (fuel + 1) + 1 := by simp; omega
        · simp

/-- The rate-limit classification of an HTTP 429 (used by the concrete
counterexample run). -/
def rateErr : AppError :=
  ⟨.RATE_LIMIT_ERROR, "Too many requests. Please wait a moment before trying again.", some 429⟩

/-- Counterexample to C8 as stated: with `maxRetries = 3` the wrapper
executes a persistently rate-limited operation four times, not at most
three. -/
theorem c8_counterexample :
    maxRetries = 3 ∧ ({} : St).net = 0 ∧
      (wrappedRun {} maxRetries {} (oracleBody fun _ => .error rateErr)).st.net = 4 :=
  ⟨rfl, rfl, rfl⟩

/-- C8 (amended).  The wrapper executes the operation at most
`maxRetries + 1 = 4` times in total; a re-attempt happens only when the
previous failure was retryable; retryable means rate-limited, or a network
error with no status code or a status of 500 and above; a validation or
not-found failure is never re-attempted (exactly one execution). -/
theorem c8_retry_policy :
    (∀ (env : Env) (f : Nat → Except AppError Unit) (st : St),
      (wrappedRun env maxRetries st (oracleBody f)).st.net ≤ st.net + 4) ∧
    (∀ (env : Env) (f : Nat → Except AppError Unit) (st : St) (fuel : Nat),
      st.net + 2 ≤ (wrappedRun env (fuel + 1) st (oracleBody f)).st.net →
      ∃ e, f st.net = .error e ∧ isRetryableError e = true) ∧
    (∀ e : AppError, isRetryableError e = true ↔
      (e.type = .RATE_LIMIT_ERROR ∨
        (e.type = .NETWORK_ERROR ∧
          (e.statusCode = none ∨ ∃ s, e.statusCode = some s ∧ 500 ≤ s)))) ∧
    (∀ (env : Env) (f : Nat → Except AppError Unit) (st : St) (e : AppError),
      st.cb.state = .CLOSED → f st.net = .error e →
      (e.type = .VALIDATION_ERROR ∨ e.type = .NOT_FOUND_ERROR) →
      (wrappedRun env maxRetries st (oracleBody f)).st.net = st.net + 1) := by
  refine ⟨?_, ?_, ?_, ?_⟩
  · intro env f st
    have h := wrappedRun_oracle_net_le env f maxRetries st
    simpa [maxRetries] using h
  · intro env f st fuel h
    rw [wrappedRun] at h
    cases hcb : checkCB st.cb env.now with
    | error e => rw [hcb] at h; simp at h
    | ok cb' =>
      rw [hcb] at h
      simp only [oracleBody] at h
      cases hv : f st.net with
      | ok a => rw [hv] at h; simp at h
      | error e =>
        rw [hv] at h
        simp only [] at h
        by_cases hr : isRetryableError e = true
        · exact ⟨e, rfl, hr⟩
        · rw [if_neg hr] at h; simp at h
  · rintro ⟨t, m, sc⟩
    cases t <;> cases sc <;> simp [isRetryableError]
  · intro env f st e hcb hv ht
    have hnr : isRetryableError e = false := by
      rcases e with ⟨t, m, sc⟩
      rcases ht with h | h <;> simp at h <;> subst h <;> rfl
    have hok : checkCB st.cb env.now = .ok st.cb := by
      unfold checkCB; rw [hcb]
    rw [wrappedRun, hok]
    simp only [oracleBody, hv]
    rw [show ({ st with cb := st.cb } : St).net = st.net from rfl] at *
    simp only [hv, maxRetries]
    rw [if_neg (by simp [hnr])]

/-- Witness for C8 (amended): a validation failure is executed exactly
once. -/
theorem c8_witness :
    (wrappedRun {} maxRetries {}
      (oracleBody fun _ => .error ⟨.VALIDATION_ERROR, "bad input", none⟩)).st.net = 0 + 1 :=
  c8_retry_policy.2.2.2 {} (fun _ => .error ⟨.VALIDATION_ERROR, "bad input", none⟩) {}
    ⟨.VALIDATION_ERROR, "bad input", none⟩ rfl rfl (Or.inl rfl)

/-! ## Claim C10: local validation failures feed the circuit breaker -/

/-- An input that fails `createRSVP`'s local validation: a missing
required field or a malformed email. -/
def invalidRSVPReq (req : CreateRSVPRequest) : Bool :=
  req.eventId.isEmpty || req.attendeeName.isEmpty || req.attendeeEmail.isEmpty ||
    !jsEmailTest req.attendeeEmail

/-- On an invalid input and a closed circuit, `createRSVP` fails with a
validation error before touching network, store or cache, and records one
breaker failure. -/
theorem createRSVP_invalid_step (env : Env) (st : St) (req : CreateRSVPRequest)
    (hcb : st.cb.state = .CLOSED) (h : invalidRSVPReq req = true) :
    (createRSVP env st req).st = { st with cb := recordFailure st.cb env.now } ∧
      resErrType (createRSVP env st req).val = some .VALIDATION_ERROR := by
  have hok : checkCB st.cb env.now = .ok st.cb := by
    unfold checkCB; rw [hcb]
  by_cases h1 : (req.eventId.isEmpty || req.attendeeName.isEmpty || req.attendeeEmail.isEmpty) = true
  · have hbody : ∀ s : St, createRSVPBody env req s =
        ⟨.error ⟨.VALIDATION_ERROR, "Missing required RSVP information", none⟩, s⟩ := by
      intro s; unfold createRSVPBody; rw [if_pos h1]
    unfold createRSVP
    rw [wrappedRun, hok]
    simp only [hbody]
    exact ⟨rfl, rfl⟩
  · have h2 : jsEmailTest req.attendeeEmail = false := by
      cases hj : jsEmailTest req.attendeeEmail
      · rfl
      · exfalso
        apply h1
        unfold invalidRSVPReq at h
        rw [hj] at h
        simpa using h
    have hbody : ∀ s : St, createRSVPBody env req s =
        ⟨.error ⟨.VALIDATION_ERROR, "Please provide a valid email address", none⟩, s⟩ := by
      intro s
      unfold createRSVPBody
      rw [if_neg (by simp only [h1]; exact Bool.false_ne_true), if_pos (by rw [h2]; rfl)]
    unfold createRSVP
    rw [wrappedRun, hok]
    simp only [hbody]
    exact ⟨rfl, rfl⟩

/-- State part of `createRSVP_invalid_step`, for chaining. -/
theorem createRSVP_invalid_st (env : Env) (st : St) (req : CreateRSVPRequest)
    (hcb : st.cb.state = .CLOSED) (h : invalidRSVPReq req = true) :
    (createRSVP env st req).st = { st with cb := recordFailure st.cb env.now } :=
  (createRSVP_invalid_step env st req hcb h).1

/-- Shared helper: while the circuit is open and young, any wrapped
operation fast-fails with the service-unavailable network error and the
state is untouched. -/
theorem wrappedRun_open_fastfail {α : Type} (env : Env) (fuel : Nat) (st : St)
    (body : St → Res α) (h1 : st.cb.state = .OPEN)
    (h2 : env.now - st.cb.lastFailureTime < recoveryTimeout) :
    wrappedRun env fuel st body =
      ⟨.error ⟨.NETWORK_ERROR,
        "Service temporarily unavailable due to repeated failures. Please try again later.", none⟩, st⟩ := by
  have hcb : checkCB st.cb env.now =
      .error ⟨.NETWORK_ERROR,
        "Service temporarily unavailable due to repeated failures. Please try again later.", none⟩ := by
    unfold checkCB
    rw [h1]
    exact if_neg (by omega)
  rw [wrappedRun, hcb]

/-- C10.  Every failure raised inside a wrapped operation increments the
breaker's counter — including `createRSVP`'s purely local validation
failures, which never reach the network; five consecutive invalid inputs
therefore open the circuit, and while it is open and younger than the
60-second recovery timeout every wrapped operation fast-fails without
being attempted. -/
theorem c10_validation_failures_open_circuit :
    (∀ (env : Env) (st : St) (req : CreateRSVPRequest),
      st.cb.state = .CLOSED → invalidRSVPReq req = true →
      (createRSVP env st req).st.cb.failureCount = st.cb.failureCount + 1 ∧
      (createRSVP env st req).st.net = st.net ∧
      (createRSVP env st req).st.store = st.store ∧
      (createRSVP env st req).st.cache = st.cache ∧
      resErrType (createRSVP env st req).val = some .VALIDATION_ERROR) ∧
    (∀ (e₁ e₂ e₃ e₄ e₅ : Env) (st₀ : St) (r₁ r₂ r₃ r₄ r₅ : CreateRSVPRequest),
      st₀.cb = ⟨.CLOSED, 0, 0⟩ →
      invalidRSVPReq r₁ = true → invalidRSVPReq r₂ = true → invalidRSVPReq r₃ = true →
      invalidRSVPReq r₄ = true → invalidRSVPReq r₅ = true →
      (createRSVP e₅ (createRSVP e₄ (createRSVP e₃ (createRSVP e₂
        (createRSVP e₁ st₀ r₁).st r₂).st r₃).st r₄).st r₅).st.cb =
        ⟨.OPEN, 5, e₅.now⟩) ∧
    (∀ (α : Type) (env : Env) (fuel : Nat) (st : St) (body : St → Res α),
      st.cb.state = .OPEN → env.now - st.cb.lastFailureTime < recoveryTimeout →
      wrappedRun env fuel st body =
        ⟨.error ⟨.NETWORK_ERROR,
          "Service temporarily unavailable due to repeated failures. Please try again later.",
          none⟩, st⟩) := by
  refine ⟨?_, ?_, ?_⟩
  · intro env st req hcb h
    obtain ⟨hst, hval⟩ := createRSVP_invalid_step env st req hcb h
    rw [hst]
    have hcount : (recordFailure st.cb env.now).failureCount = st.cb.failureCount + 1 := by
      unfold recordFailure
      split <;> rfl
    exact ⟨hcount, rfl, rfl, rfl, hval⟩
  · intro e₁ e₂ e₃ e₄ e₅ st₀ r₁ r₂ r₃ r₄ r₅ hcb0 h₁ h₂ h₃ h₄ h₅
    have s1 : (createRSVP e₁ st₀ r₁).st = { st₀ with cb := ⟨.CLOSED, 1, e₁.now⟩ } := by
      rw [createRSVP_invalid_st e₁ st₀ r₁ (by rw [hcb0]) h₁, hcb0]
      rfl
    rw [s1]
    have s2 : (createRSVP e₂ { st₀ with cb := ⟨.CLOSED, 1, e₁.now⟩ } r₂).st =
        { st₀ with cb := ⟨.CLOSED, 2, e₂.now⟩ } :=
      createRSVP_invalid_st e₂ { st₀ with cb := ⟨.CLOSED, 1, e₁.now⟩ } r₂ rfl h₂
    rw [s2]
    have s3 : (createRSVP e₃ { st₀ with cb := ⟨.CLOSED, 2, e₂.now⟩ } r₃).st =
        { st₀ with cb := ⟨.CLOSED, 3, e₃.now⟩ } :=
      createRSVP_invalid_st e₃ { st₀ with cb := ⟨.CLOSED, 2, e₂.now⟩ } r₃ rfl h₃
    rw [s3]
    have s4 : (createRSVP e₄ { st₀ with cb := ⟨.CLOSED, 3, e₃.now⟩ } r₄).st =
        { st₀ with cb := ⟨.CLOSED, 4, e₄.now⟩ } :=
      createRSVP_invalid_st e₄ { st₀ with cb := ⟨.CLOSED, 3, e₃.now⟩ } r₄ rfl h₄
    rw [s4]
    have s5 : (createRSVP e₅ { st₀ with cb := ⟨.CLOSED, 4, e₄.now⟩ } r₅).st =
        { st₀ with cb := ⟨.OPEN, 5, e₅.now⟩ } :=
      createRSVP_invalid_st e₅ { st₀ with cb := ⟨.CLOSED, 4, e₄.now⟩ } r₅ rfl h₅
    rw [s5]
  · intro α env fuel st body h1 h2
    exact wrappedRun_open_fastfail env fuel st body h1 h2

/-- Witness for C10: one concrete invalid request (empty email) against a
clean closed breaker bumps the counter to 1 and is classified as a
validation failure. -/
theorem c10_witness :
    (createRSVP {} {} ⟨"recAAAAAAAAAAAAAA", "A", ""⟩).st.cb.failureCount = ({} : St).cb.failureCount + 1 ∧
      (createRSVP {} {} ⟨"recAAAAAAAAAAAAAA", "A", ""⟩).st.net = ({} : St).net ∧
      (createRSVP {} {} ⟨"recAAAAAAAAAAAAAA", "A", ""⟩).st.store = ({} : St).store ∧
      (createRSVP {} {} ⟨"recAAAAAAAAAAAAAA", "A", ""⟩).st.cache = ({} : St).cache ∧
      resErrType (createRSVP {} {} ⟨"recAAAAAAAAAAAAAA", "A", ""⟩).val = some .VALIDATION_ERROR :=
  c10_validation_failures_open_circuit.1 {} {} ⟨"recAAAAAAAAAAAAAA", "A", ""⟩ rfl rfl

/-! ## Claim C6: malformed event identifiers (corrected) -/

/-- Counterexample to C6 as stated: the empty identifier is rejected
locally but classified `VALIDATION_ERROR`, not `NOT_FOUND_ERROR` (and the
whitespace-only identifier behaves the same way). -/
theorem c6_counterexample :
    idPattern "" = false ∧
      resErrType (getEvent {} {} "").val = some .VALIDATION_ERROR ∧
      resErrType (getEvent {} {} " ").val = some .VALIDATION_ERROR ∧
      (getEvent {} {} "").st = ({} : St) ∧
      ErrType.VALIDATION_ERROR ≠ ErrType.NOT_FOUND_ERROR :=
  ⟨rfl, rfl, rfl, rfl, by decide⟩

/-- C6 (amended).  Any identifier that does not match the store's
`rec` + 14 alphanumerics pattern is rejected with no network call and no
state change at all; the classification is `NOT_FOUND_ERROR` — except for
the empty and whitespace-only identifiers, which the preceding guard
classifies `VALIDATION_ERROR`. -/
theorem c6_malformed_id_local_reject (env : Env) (st : St) (id : String)
    (h : idPattern id = false) :
    getEvent env st id =
      (if id = "" ∨ trimJS id = "" then
        ⟨.error ⟨.VALIDATION_ERROR, "Invalid event ID provided", none⟩, st⟩
      else
        ⟨.error ⟨.NOT_FOUND_ERROR,
          "Invalid event link. Please check the URL and try again.", none⟩, st⟩) := by
  unfold getEvent
  by_cases he : id = "" ∨ trimJS id = ""
  · rw [if_pos he, if_pos he]
  · rw [if_neg he, if_neg he, if_pos (by rw [h]; exact Bool.false_ne_true)]

/-- Witness for C6 at a concrete malformed identifier. -/
theorem c6_witness :
    getEvent {} {} "not-a-record-id" =
      ⟨.error ⟨.NOT_FOUND_ERROR,
        "Invalid event link. Please check the URL and try again.", none⟩, ({} : St)⟩ := by
  have h := c6_malformed_id_local_reject {} {} "not-a-record-id" rfl
  simpa using h

/-! ## Concrete sequential scenarios

A browser session against an initially empty store, with the clock in
milliseconds; `envAt t` is the call environment at instant `t` (UTC
offset 0, no browser origin). -/

/-- Environment of a call made at instant `t`. -/
def envAt (t : Int) : Env := { now := t }

/-- The id the store hands the first created record. -/
def evId0 : String := genId 0

/-! ## Claim C3: cancel-then-re-RSVP scenario (corrected) -/

/-- The scenario's event: capacity 1, far-future date. -/
def c3ReqEvent : CreateEventRequest := ⟨"Team Party", "P", "2099-01-02", "10:00", "HQ", 1, "org1"⟩

/-- Attendee A's request. -/
def c3ReqA : CreateRSVPRequest := ⟨evId0, "A", "a@x.com"⟩

/-- Attendee B's request. -/
def c3ReqB : CreateRSVPRequest := ⟨evId0, "B", "b@x.com"⟩

/-- Step 1: create the event (t = 0). -/
def c3St1 : Res Event := createEvent (envAt 0) {} c3ReqEvent

/-- Step 2: A RSVPs (t = 1 s) — succeeds. -/
def c3St2 : Res RSVP := createRSVP (envAt 1000) c3St1.st c3ReqA

/-- Step 3: B RSVPs (t = 2 s) — capacity exceeded. -/
def c3St3 : Res RSVP := createRSVP (envAt 2000) c3St2.st c3ReqB

/-- Step 4: A's RSVP is cancelled through `updateRSVP` (t = 3 s). -/
def c3St4 : Res RSVP := updateRSVP (envAt 3000) c3St3.st (genId 1) ⟨some .cancelled⟩

/-- Step 5: B retries within the cache TTL (t = 4 s). -/
def c3St5 : Res RSVP := createRSVP (envAt 4000) c3St4.st c3ReqB

/-- Step 5 retried only after the RSVP-list cache entry written at step 3
has expired (t = 302.001 s, more than 5 minutes after t = 2 s). -/
def c3St5Late : Res RSVP := createRSVP (envAt 302001) c3St4.st c3ReqB

/-- Counterexample to C3 as stated: after A's RSVP is cancelled via
`updateRSVP`, B's immediate retry still fails with `CAPACITY_EXCEEDED`,
because `updateRSVP` does not invalidate the event's RSVP-list cache
entry (written during B's failed attempt, still within its 5-minute
TTL). -/
theorem c3_counterexample :
    c3St2.val = .ok ⟨genId 1, evId0, "A", "a@x.com", .confirmed, "0", "0"⟩ ∧
      resErrType c3St3.val = some .CAPACITY_EXCEEDED ∧
      c3St4.val = .ok ⟨genId 1, evId0, "A", "a@x.com", .cancelled, "0", "0"⟩ ∧
      c3St5.val = .error ⟨.CAPACITY_EXCEEDED,
        "This event is now at full capacity. No more RSVPs can be accepted.", none⟩ ∧
      (4000 : Int) - 2000 ≤ cacheTTL :=
  ⟨rfl, rfl, rfl, rfl, by decide⟩

/-- C3 (amended).  The scenario does succeed for B once the stale cached
RSVP list has aged past its 5-minute TTL: the only stale state is the
client cache entry, and its expiry restores the claimed behaviour. -/
theorem c3_scenario_after_cache_expiry :
    c3St5Late.val = .ok ⟨genId 2, evId0, "B", "b@x.com", .confirmed, "0", "0"⟩ ∧
      cacheTTL < (302001 : Int) - 2000 :=
  ⟨rfl, by decide⟩

/-! ## Claim C1: capacity invariant (corrected) -/

/-- The scenario's event: capacity 2, far-future date. -/
def c1ReqEvent : CreateEventRequest := ⟨"Meetup", "P", "2099-01-02", "10:00", "HQ", 2, "org1"⟩

/-- Attendee A. -/
def c1ReqA : CreateRSVPRequest := ⟨evId0, "A", "a@x.com"⟩

/-- Attendee B. -/
def c1ReqB : CreateRSVPRequest := ⟨evId0, "B", "b@x.com"⟩

/-- Attendee C. -/
def c1ReqC : CreateRSVPRequest := ⟨evId0, "C", "c@x.com"⟩

/-- Step 1: create the capacity-2 event (t = 0). -/
def c1St1 : Res Event := createEvent (envAt 0) {} c1ReqEvent

/-- Step 2: A RSVPs (t = 1 s). -/
def c1St2 : Res RSVP := createRSVP (envAt 1000) c1St1.st c1ReqA

/-- Step 3: B RSVPs (t = 2 s). -/
def c1St3 : Res RSVP := createRSVP (envAt 2000) c1St2.st c1ReqB

/-- Step 4: A's RSVP is cancelled via `updateRSVP` (t = 3 s). -/
def c1St4 : Res RSVP := updateRSVP (envAt 3000) c1St3.st (genId 1) ⟨some .cancelled⟩

/-- Step 5: A re-RSVPs (t = 4 s): the cancelled row is reactivated, and
this return path skips the RSVP-list cache invalidation, leaving the list
fetched before the reactivation in the cache. -/
def c1St5 : Res RSVP := createRSVP (envAt 4000) c1St4.st c1ReqA

/-- Step 6: C RSVPs (t = 5 s): both capacity checks read the stale cached
list (1 confirmed of 2) and the insert goes through. -/
def c1St6 : Res RSVP := createRSVP (envAt 5000) c1St5.st c1ReqC

/-- Counterexample to C1 as stated: a single, non-concurrent, successful
insert (attendee C) after which the store holds 3 confirmed RSVPs for a
capacity-2 event.  The second capacity check read the service's own stale
cache — reactivation via `updateRSVP` invalidates nothing — so even the
sequential invariant fails. -/
theorem c1_counterexample :
    c1St5.val = .ok ⟨genId 1, evId0, "A", "a@x.com", .confirmed, "0", "0"⟩ ∧
      c1St6.val = .ok ⟨genId 3, evId0, "C", "c@x.com", .confirmed, "0", "0"⟩ ∧
      c1St6.st.store.rsvps.length = c1St5.st.store.rsvps.length + 1 ∧
      c1ReqEvent.capacity = 2 ∧
      confirmedCount c1St6.st.store evId0 = 3 ∧
      ¬((3 : Int) ≤ 2) :=
  ⟨rfl, rfl, rfl, rfl, rfl, by decide⟩

/-! ## Claim C5: email normalization (corrected) -/

/-- A one-event store (capacity 5, no RSVPs) for the email scenarios. -/
def c5BaseSt : St :=
  { store :=
      { events := [⟨genId 0,
          { title := "T", description := "P\n\nEvent Time: 10:00", date := "2099-01-02",
            location := "L", capacity := 5, organizer_id := "org1" }, "0"⟩]
        nextId := 1 } }

/-- The same attendee with the service's casing. -/
def c5Run1 : Res RSVP := createRSVP (envAt 1000) c5BaseSt ⟨evId0, "Jane", "Jane@X.com"⟩

/-- The same attendee after trimming and lower-casing — rejected. -/
def c5Run2 : Res RSVP := createRSVP (envAt 1000) c5BaseSt ⟨evId0, "Jane", " jane@x.com"⟩

/-- Counterexample to C5 as stated: `Jane@X.com` and ` jane@x.com` are
equal after lower-casing and trimming, yet the service accepts the first
(storing `jane@x.com`) and rejects the second outright — the email format
check runs on the raw string and no trimming happens before it, so
whitespace-differing spellings of one attendee are not treated alike. -/
theorem c5_counterexample :
    trimJS (lcStr "Jane@X.com") = trimJS (lcStr " jane@x.com") ∧
      c5Run1.val = .ok ⟨genId 1, evId0, "Jane", "jane@x.com", .confirmed, "0", "0"⟩ ∧
      c5Run2.val = .error ⟨.VALIDATION_ERROR, "Please provide a valid email address", none⟩ :=
  ⟨rfl, rfl, rfl⟩

/-- An email accepted by the format regex is nonempty. -/
theorem jsEmailTest_isEmpty_false (s : String) (h : jsEmailTest s = true) :
    s.isEmpty = false := by
  cases he : s.isEmpty
  · rfl
  · exfalso
    have hs : s = "" := (String.isEmpty_iff s).mp he
    subst hs
    exact absurd h (by decide)

/-- C5 (amended).  For any two emails that both pass the format
validation (hence contain no whitespace, making the trim a no-op) and are
equal after lower-casing, `createRSVP` behaves identically: same result,
same stored rows (with the lower-cased, trimmed email), same cache and
breaker state.  As stated the claim fails, because strings equal only
after trimming are not treated alike (see the counterexample). -/
theorem c5_email_case_insensitive (env : Env) (st : St) (eid name e₁ e₂ : String)
    (hlc : lcStr e₁ = lcStr e₂)
    (h₁ : jsEmailTest e₁ = true) (h₂ : jsEmailTest e₂ = true) :
    createRSVP env st ⟨eid, name, e₁⟩ = createRSVP env st ⟨eid, name, e₂⟩ := by
  have hE₁ := jsEmailTest_isEmpty_false e₁ h₁
  have hE₂ := jsEmailTest_isEmpty_false e₂ h₂
  have hbody : createRSVPBody env ⟨eid, name, e₁⟩ = createRSVPBody env ⟨eid, name, e₂⟩ := by
    funext s
    unfold createRSVPBody
    simp only [hE₁, hE₂, h₁, h₂, hlc]
  unfold createRSVP
  rw [hbody]

/-- Witness for C5 at two concrete casings of one address. -/
theorem c5_witness :
    createRSVP (envAt 1000) c5BaseSt ⟨evId0, "Jane", "Jane@X.com"⟩ =
      createRSVP (envAt 1000) c5BaseSt ⟨evId0, "Jane", "jane@x.com"⟩ :=
  c5_email_case_insensitive (envAt 1000) c5BaseSt evId0 "Jane" "Jane@X.com" "jane@x.com"
    rfl rfl rfl

/-! ## Execution lemmas on fresh-cache states

These describe what the operations do when run from a state whose cache
is empty and whose breaker is clean — the canonical coherent state, used
by the amended C1 and by C4. -/

/-- A service state over a given store with empty cache, clean breaker
and no calls issued yet. -/
def stFresh (store : Store) : St := ⟨store, [], {}, 0⟩

/-- What the store answers to the RSVP list query for an event. -/
def storeRSVPList (store : Store) (eid : String) : List RSVP :=
  (store.rsvps.filter fun r => r.fields.event_id = eid).map transformRSVPFromAirtable

/-- A list whose members include one failing the predicate does not drop
to nil under `dropWhile`. -/
theorem dropWhile_ne_nil_of_mem {p : Char → Bool} : ∀ {l : List Char} {c : Char},
    c ∈ l → p c = false → l.dropWhile p ≠ [] := by
  intro l
  induction l with
  | nil => intro c hc; exact absurd hc (List.not_mem_nil c)
  | cons a as ih =>
    intro c hc hp
    rw [List.dropWhile_cons]
    split
    · rename_i ha
      rcases List.mem_cons.mp hc with rfl | hmem
      · rw [hp] at ha; exact absurd ha (by simp)
      · exact ih hmem hp
    · simp

/-- A pattern-valid identifier is neither empty nor whitespace-only. -/
theorem idPattern_passes_guard (s : String) (h : idPattern s = true) :
    ¬(s = "" ∨ trimJS s = "") := by
  unfold idPattern at h
  split at h
  · rename_i a rest hd
    rintro (h1 | h1)
    · subst h1; simp at hd
    · have hdata : (((s.data.dropWhile isWsJS).reverse.dropWhile isWsJS).reverse) = [] := by
        have := congrArg String.data h1
        simpa [trimJS] using this
      rw [hd] at hdata
      have hr : ('r' : Char) ∈ ('r' :: 'e' :: 'c' :: rest).dropWhile isWsJS := by
        rw [show ('r' :: 'e' :: 'c' :: rest).dropWhile isWsJS = 'r' :: 'e' :: 'c' :: rest
          from rfl]
        simp
      have hmem : ('r' : Char) ∈ (('r' :: 'e' :: 'c' :: rest).dropWhile isWsJS).reverse := by
        simpa using hr
      have := dropWhile_ne_nil_of_mem hmem (show isWsJS 'r' = false from rfl)
      rw [List.reverse_eq_nil_iff] at hdata
      exact this hdata
  · exact absurd h (by simp)

/-- Execution of `getEvent` from a fresh state: the record is fetched,
transformed, integrity-checked and cached. -/
theorem getEvent_fresh (env : Env) (store : Store) (eid : String) (evRec : Rec EventFields)
    (hid : idPattern eid = true)
    (hfind : store.events.find? (fun r => r.id = eid) = some evRec)
    (hwft : (transformEventFromAirtable env evRec).title ≠ "")
    (hwfd : (transformEventFromAirtable env evRec).date ≠ "")
    (hwfti : (transformEventFromAirtable env evRec).time ≠ "") :
    getEvent env (stFresh store) eid =
      ⟨.ok (transformEventFromAirtable env evRec),
       ⟨store, [⟨.evKey eid, .eventVal (transformEventFromAirtable env evRec), env.now⟩], {}, 1⟩⟩ := by
  unfold getEvent stFresh
  rw [if_neg (idPattern_passes_guard eid hid), if_neg (by rw [hid]; exact fun hc => hc rfl)]
  rw [show cacheGet [] env.now (.evKey eid) = none from rfl]
  rw [wrappedRun]
  rw [show checkCB ({} : CB) env.now = .ok ({} : CB) from rfl]
  simp only [hfind]
  rw [if_neg (by rintro (hc | hc | hc) <;> [exact hwft hc; exact hwfd hc; exact hwfti hc])]
  rfl

/-- Reading the key just written: a hit unless the entry has aged past
the TTL. -/
theorem cacheGet_cons_same (c : Cache) (now t : Int) (k : CacheKey) (v : CacheVal) :
    cacheGet (⟨k, v, t⟩ :: c) now k = if now - t > cacheTTL then none else some v := by
  unfold cacheGet
  rw [List.find?_cons_of_pos _ (by simp)]

/-- Execution of `getRSVPsByEvent` from the state `getEvent` leaves
behind: a cache miss, so the list is fetched from the store and cached. -/
theorem getRSVPs_after_event (env : Env) (store : Store) (eid : String) (ev : Event) :
    getRSVPsByEvent env ⟨store, [⟨.evKey eid, .eventVal ev, env.now⟩], {}, 1⟩ eid =
      ⟨.ok (storeRSVPList store eid),
       ⟨store, [⟨.rsvpsOf eid, .rsvpList (storeRSVPList store eid), env.now⟩,
                ⟨.evKey eid, .eventVal ev, env.now⟩], {}, 2⟩⟩ := by
  unfold getRSVPsByEvent
  rw [show cacheGet [⟨.evKey eid, .eventVal ev, env.now⟩] env.now (.rsvpsOf eid) = none from by
    simp [cacheGet]]
  rw [wrappedRun]
  rw [show checkCB ({} : CB) env.now = .ok ({} : CB) from rfl]
  simp only [cacheSet]
  rw [show (([⟨.evKey eid, .eventVal ev, env.now⟩] : Cache).filter
      fun e => ¬e.key = CacheKey.rsvpsOf eid) = [⟨.evKey eid, .eventVal ev, env.now⟩] from by
    simp]
  rfl

/-- Execution of the `createRSVP` body from a fresh state, up to the
duplicate-detection branch: with valid input, an existing future event
and spare capacity, the body either rejects a confirmed duplicate,
reactivates a cancelled one through `updateRSVP` (leaving the just-written
RSVP-list cache entry in place), or inserts a fresh confirmed row and
invalidates the list cache. -/
theorem createRSVPBody_fresh (env : Env) (store : Store) (req : CreateRSVPRequest)
    (evRec : Rec EventFields)
    (hne : req.eventId.isEmpty = false) (hnn : req.attendeeName.isEmpty = false)
    (hnm : req.attendeeEmail.isEmpty = false)
    (hmail : jsEmailTest req.attendeeEmail = true)
    (hid : idPattern req.eventId = true)
    (hfind : store.events.find? (fun r => r.id = req.eventId) = some evRec)
    (hwft : (transformEventFromAirtable env evRec).title ≠ "")
    (hwfd : (transformEventFromAirtable env evRec).date ≠ "")
    (hwfti : (transformEventFromAirtable env evRec).time ≠ "")
    (hpast : isPastEvent env (transformEventFromAirtable env evRec) = false)
    (hcap : ¬((((storeRSVPList store req.eventId).filter
        fun r => r.status = .confirmed).length : Int) ≥
        (transformEventFromAirtable env evRec).capacity)) :
    createRSVPBody env req (stFresh store) =
      (match (storeRSVPList store req.eventId).find?
          (fun r => lcStr r.attendeeEmail = lcStr req.attendeeEmail) with
       | some ex =>
         if ex.status = .confirmed then
           ⟨.error ⟨.VALIDATION_ERROR, "You have already RSVPd to this event", none⟩,
            ⟨store, [⟨.rsvpsOf req.eventId, .rsvpList (storeRSVPList store req.eventId), env.now⟩,
                     ⟨.evKey req.eventId, .eventVal (transformEventFromAirtable env evRec), env.now⟩],
             {}, 2⟩⟩
         else
           updateRSVP env
             ⟨store, [⟨.rsvpsOf req.eventId, .rsvpList (storeRSVPList store req.eventId), env.now⟩,
                      ⟨.evKey req.eventId, .eventVal (transformEventFromAirtable env evRec), env.now⟩],
              {}, 2⟩ ex.id ⟨some .confirmed⟩
       | none =>
         ⟨.ok (transformRSVPFromAirtable
            ⟨genId store.nextId,
             ⟨req.eventId, trimJS req.attendeeName, trimJS (lcStr req.attendeeEmail),
              .confirmed, none, none⟩, "0"⟩),
          ⟨{ store with
               rsvps := store.rsvps ++
                 [⟨genId store.nextId,
                   ⟨req.eventId, trimJS req.attendeeName, trimJS (lcStr req.attendeeEmail),
                    .confirmed, none, none⟩, "0"⟩],
               nextId := store.nextId + 1 },
           cacheDelete
             [⟨.rsvpsOf req.eventId, .rsvpList (storeRSVPList store req.eventId), env.now⟩,
              ⟨.evKey req.eventId, .eventVal (transformEventFromAirtable env evRec), env.now⟩]
             (.rsvpsOf req.eventId),
           {}, 3⟩⟩) := by
  unfold createRSVPBody
  rw [if_neg (by rw [hne, hnn, hnm]; exact Bool.false_ne_true)]
  rw [if_neg (by rw [hmail]; exact Bool.false_ne_true)]
  rw [getEvent_fresh env store req.eventId evRec hid hfind hwft hwfd hwfti]
  simp only []
  rw [if_neg (by rw [hpast]; exact Bool.false_ne_true)]
  rw [getRSVPs_after_event env store req.eventId (transformEventFromAirtable env evRec)]
  simp only []
  rw [if_neg hcap]
  have hhit : cacheGet
      [⟨.rsvpsOf req.eventId, .rsvpList (storeRSVPList store req.eventId), env.now⟩,
       ⟨.evKey req.eventId, .eventVal (transformEventFromAirtable env evRec), env.now⟩]
      env.now (.rsvpsOf req.eventId) =
      some (.rsvpList (storeRSVPList store req.eventId)) := by
    rw [cacheGet_cons_same]
    rw [if_neg (by unfold cacheTTL; omega)]
  rw [show (getRSVPsByEvent env
      ⟨store, [⟨.rsvpsOf req.eventId, .rsvpList (storeRSVPList store req.eventId), env.now⟩,
               ⟨.evKey req.eventId, .eventVal (transformEventFromAirtable env evRec), env.now⟩],
       {}, 2⟩ req.eventId) =
      ⟨.ok (storeRSVPList store req.eventId),
       ⟨store, [⟨.rsvpsOf req.eventId, .rsvpList (storeRSVPList store req.eventId), env.now⟩,
                ⟨.evKey req.eventId, .eventVal (transformEventFromAirtable env evRec), env.now⟩],
        {}, 2⟩⟩ from by
    unfold getRSVPsByEvent
    rw [hhit]]
  simp only []
  rw [if_neg hcap]

/-- Execution of `updateRSVP` on a clean breaker when the record exists:
the status field is patched and the patched record returned; neither the
cache nor anything else is touched. -/
theorem updateRSVP_found (env : Env) (store : Store) (cache : Cache) (net : Nat)
    (rid : String) (rec : Rec RSVPFields)
    (hfind : store.rsvps.find? (fun r => r.id = rid) = some rec) :
    updateRSVP env ⟨store, cache, {}, net⟩ rid ⟨some .confirmed⟩ =
      ⟨.ok (transformRSVPFromAirtable { rec with fields := { rec.fields with status := .confirmed } }),
       ⟨{ store with rsvps := patchRSVPRecs store.rsvps rid { rec.fields with status := .confirmed } },
        cache, {}, net + 1⟩⟩ := by
  unfold updateRSVP
  rw [wrappedRun]
  rw [show checkCB ({} : CB) env.now = .ok ({} : CB) from rfl]
  simp only [hfind]
  rfl

/-- The observed confirmed RSVPs are the transforms of the store's
confirmed rows for the event. -/
theorem storeRSVPList_filter_confirmed (store : Store) (eid : String) :
    (storeRSVPList store eid).filter (fun r => r.status = .confirmed) =
      ((store.rsvps.filter fun r => r.fields.event_id = eid).filter
        fun r => r.fields.status = .confirmed).map transformRSVPFromAirtable := by
  unfold storeRSVPList
  rw [List.filter_map]
  rfl

/-- The observed confirmed count equals the store's confirmed count. -/
theorem confirmedCount_observed (store : Store) (eid : String) :
    ((storeRSVPList store eid).filter (fun r => r.status = .confirmed)).length =
      confirmedCount store eid := by
  rw [storeRSVPList_filter_confirmed, List.length_map]
  rfl

/-- Appending one confirmed row for the event bumps its confirmed count
by exactly one. -/
theorem confirmedCount_insert (s₁ s₂ : Store) (eid : String) (r : Rec RSVPFields)
    (h : s₂.rsvps = s₁.rsvps ++ [r])
    (he : r.fields.event_id = eid) (hs : r.fields.status = .confirmed) :
    confirmedCount s₂ eid = confirmedCount s₁ eid + 1 := by
  unfold confirmedCount
  rw [h, List.filter_append, List.filter_append]
  simp [List.filter_cons, he, hs]

/-- Patching the (unique) row found for an id from cancelled to confirmed
bumps the event's confirmed row count by exactly one. -/
theorem countConfirmed_patch : ∀ (l : List (Rec RSVPFields)) (i : String)
    (rec : Rec RSVPFields) (eid : String),
    l.find? (fun r => r.id = i) = some rec →
    rec.fields.event_id = eid → rec.fields.status = .cancelled →
    (((patchRSVPRecs l i { rec.fields with status := .confirmed }).filter
        fun r => r.fields.event_id = eid).filter fun r => r.fields.status = .confirmed).length
      = ((l.filter fun r => r.fields.event_id = eid).filter
          fun r => r.fields.status = .confirmed).length + 1 := by
  intro l
  induction l with
  | nil => intro i rec eid hf; simp at hf
  | cons a as ih =>
    intro i rec eid hf he hs
    by_cases ha : a.id = i
    · rw [List.find?_cons_of_pos _ (by simpa using ha)] at hf
      injection hf with hrec
      subst hrec
      unfold patchRSVPRecs
      rw [if_pos ha]
      simp [List.filter_cons, he, hs]
    · rw [List.find?_cons_of_neg _ (by simpa using ha)] at hf
      unfold patchRSVPRecs
      rw [if_neg ha]
      simp only [List.filter_cons]
      by_cases h1 : a.fields.event_id = eid
      · rw [if_pos (by simp [h1]), if_pos (by simp [h1])]
        simp only [List.filter_cons]
        by_cases h2 : a.fields.status = RStatus.confirmed
        · rw [if_pos (by simp [h2]), if_pos (by simp [h2])]
          simp only [List.length_cons]
          rw [ih i rec eid hf he hs]
        · rw [if_neg (by simp [h2]), if_neg (by simp [h2])]
          exact ih i rec eid hf he hs
      · rw [if_neg (by simp [h1]), if_neg (by simp [h1])]
        exact ih i rec eid hf he hs

/-- From a duplicate found in the observed list, recover the underlying
store row: with store ids distinct, looking the observed id up in the
store finds exactly the row whose transform was observed. -/
theorem find_store_of_observed (store : Store) (eid : String) (e : String) (ex : RSVP)
    (hnodup : (store.rsvps.map fun r => r.id).Nodup)
    (hdup : (storeRSVPList store eid).find?
        (fun r => lcStr r.attendeeEmail = lcStr e) = some ex) :
    ∃ rec, store.rsvps.find? (fun r => r.id = ex.id) = some rec ∧
      transformRSVPFromAirtable rec = ex ∧ rec.fields.event_id = eid := by
  have hmem := List.mem_of_find?_eq_some hdup
  unfold storeRSVPList at hmem
  rcases List.mem_map.mp hmem with ⟨rec₁, hrec₁mem, hrec₁eq⟩
  have hrec₁store : rec₁ ∈ store.rsvps := (List.mem_filter.mp hrec₁mem).1
  have hrec₁eid : rec₁.fields.event_id = eid := by
    have := (List.mem_filter.mp hrec₁mem).2
    simpa using this
  have hid₁ : rec₁.id = ex.id := by rw [← hrec₁eq]; rfl
  have hsome : (store.rsvps.find? (fun r => r.id = ex.id)).isSome = true := by
    rw [List.find?_isSome]
    exact ⟨rec₁, hrec₁store, by simpa using hid₁⟩
  rcases Option.isSome_iff_exists.mp hsome with ⟨rec₂, hfind₂⟩
  have hrec₂mem := List.mem_of_find?_eq_some hfind₂
  have hrec₂id : rec₂.id = ex.id := by
    have := List.find?_some hfind₂
    simpa using this
  have heq : rec₂ = rec₁ :=
    List.inj_on_of_nodup_map hnodup hrec₂mem hrec₁store (by rw [hrec₂id, hid₁])
  subst heq
  exact ⟨rec₂, hfind₂, by rw [← hrec₁eq], hrec₁eid⟩

/-- The wrapper around a body that succeeds from a clean breaker: one
execution, then a success is recorded. -/
theorem wrappedRun_clean_ok {α : Type} (env : Env) (fuel : Nat) (st : St)
    (body : St → Res α) (a : α) (st' : St)
    (hcb : st.cb = {}) (hbody : body st = ⟨.ok a, st'⟩) :
    wrappedRun env fuel st body = ⟨.ok a, { st' with cb := recordSuccess st'.cb }⟩ := by
  rw [wrappedRun]
  rw [show checkCB st.cb env.now = .ok st.cb from by rw [hcb]; rfl]
  simp only [hbody]

/-- The wrapper around a body that fails non-retryably from a clean
breaker: one execution, then a failure is recorded and the error is
rethrown. -/
theorem wrappedRun_clean_err {α : Type} (env : Env) (fuel : Nat) (st : St)
    (body : St → Res α) (e : AppError) (st' : St)
    (hcb : st.cb = {}) (hbody : body st = ⟨.error e, st'⟩)
    (hnr : isRetryableError e = false) :
    wrappedRun env fuel st body = ⟨.error e, { st' with cb := recordFailure st'.cb env.now }⟩ := by
  rw [wrappedRun]
  rw [show checkCB st.cb env.now = .ok st.cb from by rw [hcb]; rfl]
  simp only [hbody]
  cases fuel with
  | zero => rfl
  | succ fuel' =>
    simp only [hnr]
    rfl

/-- Patching never inserts or removes rows. -/
theorem patchRSVPRecs_length : ∀ (l : List (Rec RSVPFields)) (i : String) (f : RSVPFields),
    (patchRSVPRecs l i f).length = l.length := by
  intro l
  induction l with
  | nil => intro i f; rfl
  | cons a as ih =>
    intro i f
    unfold patchRSVPRecs
    split
    · rfl
    · simp [ih]

/-- Execution of the `createRSVP` body from a fresh state when the event
is already at (or beyond) capacity: the first capacity check fails. -/
theorem createRSVPBody_fresh_atcap (env : Env) (store : Store) (req : CreateRSVPRequest)
    (evRec : Rec EventFields)
    (hne : req.eventId.isEmpty = false) (hnn : req.attendeeName.isEmpty = false)
    (hnm : req.attendeeEmail.isEmpty = false)
    (hmail : jsEmailTest req.attendeeEmail = true)
    (hid : idPattern req.eventId = true)
    (hfind : store.events.find? (fun r => r.id = req.eventId) = some evRec)
    (hwft : (transformEventFromAirtable env evRec).title ≠ "")
    (hwfd : (transformEventFromAirtable env evRec).date ≠ "")
    (hwfti : (transformEventFromAirtable env evRec).time ≠ "")
    (hpast : isPastEvent env (transformEventFromAirtable env evRec) = false)
    (hcap : (((storeRSVPList store req.eventId).filter
        fun r => r.status = .confirmed).length : Int) ≥
        (transformEventFromAirtable env evRec).capacity) :
    createRSVPBody env req (stFresh store) =
      ⟨.error ⟨.CAPACITY_EXCEEDED,
         "This event is now at full capacity. No more RSVPs can be accepted.", none⟩,
       ⟨store, [⟨.rsvpsOf req.eventId, .rsvpList (storeRSVPList store req.eventId), env.now⟩,
                ⟨.evKey req.eventId, .eventVal (transformEventFromAirtable env evRec), env.now⟩],
        {}, 2⟩⟩ := by
  unfold createRSVPBody
  rw [if_neg (by rw [hne, hnn, hnm]; exact Bool.false_ne_true)]
  rw [if_neg (by rw [hmail]; exact Bool.false_ne_true)]
  rw [getEvent_fresh env store req.eventId evRec hid hfind hwft hwfd hwfti]
  simp only []
  rw [if_neg (by rw [hpast]; exact Bool.false_ne_true)]
  rw [getRSVPs_after_event env store req.eventId (transformEventFromAirtable env evRec)]
  simp only []
  rw [if_pos hcap]

/-- C4.  When `createRSVP` (from a coherent, fresh-cache state) reaches
the duplicate check and finds an RSVP with the same lower-cased email:
a cancelled one is reactivated in place — the call succeeds, the returned
RSVP is the original row with status `confirmed` (same identifier), and
no row is inserted; a confirmed one makes the call fail with the
duplicate validation error. -/
theorem c4_duplicate_reconciliation (env : Env) (store : Store) (req : CreateRSVPRequest)
    (evRec : Rec EventFields) (ex : RSVP)
    (hnodup : (store.rsvps.map fun r => r.id).Nodup)
    (hne : req.eventId.isEmpty = false) (hnn : req.attendeeName.isEmpty = false)
    (hnm : req.attendeeEmail.isEmpty = false)
    (hmail : jsEmailTest req.attendeeEmail = true)
    (hid : idPattern req.eventId = true)
    (hfind : store.events.find? (fun r => r.id = req.eventId) = some evRec)
    (hwft : (transformEventFromAirtable env evRec).title ≠ "")
    (hwfd : (transformEventFromAirtable env evRec).date ≠ "")
    (hwfti : (transformEventFromAirtable env evRec).time ≠ "")
    (hpast : isPastEvent env (transformEventFromAirtable env evRec) = false)
    (hcap : ¬((((storeRSVPList store req.eventId).filter
        fun r => r.status = .confirmed).length : Int) ≥
        (transformEventFromAirtable env evRec).capacity))
    (hdup : (storeRSVPList store req.eventId).find?
        (fun r => lcStr r.attendeeEmail = lcStr req.attendeeEmail) = some ex) :
    (ex.status = .cancelled →
      (createRSVP env (stFresh store) req).val = .ok { ex with status := .confirmed } ∧
      (createRSVP env (stFresh store) req).st.store.rsvps.length = store.rsvps.length) ∧
    (ex.status = .confirmed →
      (createRSVP env (stFresh store) req).val =
        .error ⟨.VALIDATION_ERROR, "You have already RSVPd to this event", none⟩) := by
  have hbody := createRSVPBody_fresh env store req evRec hne hnn hnm hmail hid hfind
    hwft hwfd hwfti hpast hcap
  rw [hdup] at hbody
  simp only [] at hbody
  constructor
  · intro hc
    obtain ⟨rec, hfs, htr, heid⟩ :=
      find_store_of_observed store req.eventId req.attendeeEmail ex hnodup hdup
    rw [if_neg (by rw [hc]; simp)] at hbody
    rw [updateRSVP_found env store _ 2 ex.id rec hfs] at hbody
    have hrun := wrappedRun_clean_ok env maxRetries (stFresh store) (createRSVPBody env req)
      _ _ rfl hbody
    unfold createRSVP
    rw [hrun]
    constructor
    · show Except.ok (transformRSVPFromAirtable
        { rec with fields := { rec.fields with status := .confirmed } }) = _
      rw [show transformRSVPFromAirtable
          { rec with fields := { rec.fields with status := .confirmed } } =
          { transformRSVPFromAirtable rec with status := .confirmed } from rfl, htr]
    · show (patchRSVPRecs store.rsvps ex.id _).length = _
      exact patchRSVPRecs_length store.rsvps ex.id _
  · intro hc
    rw [if_pos hc] at hbody
    have hrun := wrappedRun_clean_err env maxRetries (stFresh store) (createRSVPBody env req)
      _ _ rfl hbody rfl
    unfold createRSVP
    rw [hrun]

/-- C1 (amended).  From a coherent (fresh-cache, clean-breaker) state:
any successful `createRSVP` leaves the store's confirmed count for the
event at most the event's capacity; and when execution reaches the
capacity check with the observed confirmed count at or beyond capacity,
the call fails with `CAPACITY_EXCEEDED` and the store is untouched.  (As
originally stated the claim fails — see `c1_counterexample` — because a
stale RSVP-list cache entry left by the reactivation path can defeat both
capacity checks sequentially.) -/
theorem c1_capacity_invariant_fresh_cache :
    (∀ (env : Env) (store : Store) (req : CreateRSVPRequest) (evRec : Rec EventFields) (r : RSVP),
      (store.rsvps.map fun x => x.id).Nodup →
      req.eventId.isEmpty = false → req.attendeeName.isEmpty = false →
      req.attendeeEmail.isEmpty = false → jsEmailTest req.attendeeEmail = true →
      idPattern req.eventId = true →
      store.events.find? (fun x => x.id = req.eventId) = some evRec →
      (transformEventFromAirtable env evRec).title ≠ "" →
      (transformEventFromAirtable env evRec).date ≠ "" →
      (transformEventFromAirtable env evRec).time ≠ "" →
      isPastEvent env (transformEventFromAirtable env evRec) = false →
      ¬((((storeRSVPList store req.eventId).filter fun x => x.status = .confirmed).length : Int) ≥
          (transformEventFromAirtable env evRec).capacity) →
      (createRSVP env (stFresh store) req).val = .ok r →
      ((confirmedCount (createRSVP env (stFresh store) req).st.store req.eventId : Int) ≤
        (transformEventFromAirtable env evRec).capacity)) ∧
    (∀ (env : Env) (store : Store) (req : CreateRSVPRequest) (evRec : Rec EventFields),
      req.eventId.isEmpty = false → req.attendeeName.isEmpty = false →
      req.attendeeEmail.isEmpty = false → jsEmailTest req.attendeeEmail = true →
      idPattern req.eventId = true →
      store.events.find? (fun x => x.id = req.eventId) = some evRec →
      (transformEventFromAirtable env evRec).title ≠ "" →
      (transformEventFromAirtable env evRec).date ≠ "" →
      (transformEventFromAirtable env evRec).time ≠ "" →
      isPastEvent env (transformEventFromAirtable env evRec) = false →
      (((storeRSVPList store req.eventId).filter fun x => x.status = .confirmed).length : Int) ≥
          (transformEventFromAirtable env evRec).capacity →
      (createRSVP env (stFresh store) req).val =
        .error ⟨.CAPACITY_EXCEEDED,
          "This event is now at full capacity. No more RSVPs can be accepted.", none⟩ ∧
      (createRSVP env (stFresh store) req).st.store = store) := by
  constructor
  · intro env store req evRec r hnodup hne hnn hnm hmail hid hfind hwft hwfd hwfti hpast hcap hok
    have hbody := createRSVPBody_fresh env store req evRec hne hnn hnm hmail hid hfind
      hwft hwfd hwfti hpast hcap
    have hobs := confirmedCount_observed store req.eventId
    cases hfd : (storeRSVPList store req.eventId).find?
        (fun x => lcStr x.attendeeEmail = lcStr req.attendeeEmail) with
    | none =>
      rw [hfd] at hbody
      simp only [] at hbody
      have hrun := wrappedRun_clean_ok env maxRetries (stFresh store) (createRSVPBody env req)
        _ _ rfl hbody
      unfold createRSVP
      rw [hrun]
      have hcnt : confirmedCount
          { store with
              rsvps := store.rsvps ++
                [⟨genId store.nextId,
                  ⟨req.eventId, trimJS req.attendeeName, trimJS (lcStr req.attendeeEmail),
                   .confirmed, none, none⟩, "0"⟩],
              nextId := store.nextId + 1 } req.eventId = confirmedCount store req.eventId + 1 :=
        confirmedCount_insert store _ req.eventId _ rfl rfl rfl
      show ((confirmedCount _ req.eventId : Int) ≤ _)
      rw [hcnt]
      omega
    | some ex =>
      rw [hfd] at hbody
      simp only [] at hbody
      cases hst : ex.status with
      | confirmed =>
        rw [if_pos hst] at hbody
        have hrun := wrappedRun_clean_err env maxRetries (stFresh store) (createRSVPBody env req)
          _ _ rfl hbody rfl
        unfold createRSVP at hok
        rw [hrun] at hok
        simp at hok
      | cancelled =>
        obtain ⟨rec, hfs, htr, heid⟩ :=
          find_store_of_observed store req.eventId req.attendeeEmail ex hnodup hfd
        rw [if_neg (by rw [hst]; simp)] at hbody
        rw [updateRSVP_found env store _ 2 ex.id rec hfs] at hbody
        have hrun := wrappedRun_clean_ok env maxRetries (stFresh store) (createRSVPBody env req)
          _ _ rfl hbody
        unfold createRSVP
        rw [hrun]
        have hrecst : rec.fields.status = .cancelled := by
          rw [show rec.fields.status = (transformRSVPFromAirtable rec).status from rfl, htr, hst]
        have hcnt := countConfirmed_patch store.rsvps ex.id rec req.eventId hfs heid hrecst
        show ((confirmedCount _ req.eventId : Int) ≤ _)
        unfold confirmedCount
        simp only []
        rw [hcnt]
        unfold confirmedCount at hobs
        omega
  · intro env store req evRec hne hnn hnm hmail hid hfind hwft hwfd hwfti hpast hcap
    have hbody := createRSVPBody_fresh_atcap env store req evRec hne hnn hnm hmail hid hfind
      hwft hwfd hwfti hpast hcap
    have hrun := wrappedRun_clean_err env maxRetries (stFresh store) (createRSVPBody env req)
      _ _ rfl hbody rfl
    unfold createRSVP
    rw [hrun]
    exact ⟨rfl, rfl⟩

/-- A one-event store with one cancelled RSVP, for the C4 witness. -/
def c4WitnessStore : Store :=
  { events := [⟨genId 0,
      { title := "T", description := "P\n\nEvent Time: 10:00", date := "2099-01-02",
        location := "L", capacity := 5, organizer_id := "org1" }, "0"⟩]
    rsvps := [⟨genId 1, ⟨genId 0, "Jane", "jane@x.com", .cancelled, none, none⟩, "0"⟩]
    nextId := 2 }

/-- Witness for C4: re-RSVPing with a re-cased spelling of a cancelled
attendee's email reactivates the original row, keeping its identifier. -/
theorem c4_witness :
    (createRSVP (envAt 1000) (stFresh c4WitnessStore) ⟨genId 0, "Jane", "Jane@X.com"⟩).val =
      .ok ⟨genId 1, genId 0, "Jane", "jane@x.com", .confirmed, "0", "0"⟩ ∧
    (createRSVP (envAt 1000) (stFresh c4WitnessStore) ⟨genId 0, "Jane", "Jane@X.com"⟩).st.store.rsvps.length =
      c4WitnessStore.rsvps.length :=
  (c4_duplicate_reconciliation (envAt 1000) c4WitnessStore ⟨genId 0, "Jane", "Jane@X.com"⟩
    ⟨genId 0,
      { title := "T", description := "P\n\nEvent Time: 10:00", date := "2099-01-02",
        location := "L", capacity := 5, organizer_id := "org1" }, "0"⟩
    ⟨genId 1, genId 0, "Jane", "jane@x.com", .cancelled, "0", "0"⟩
    (by decide) rfl rfl rfl rfl rfl rfl
    (by decide) (by decide) (by decide) rfl (by decide) rfl).1 rfl

/-- A one-event, no-RSVP store for the C1 witness. -/
def c1WitnessStore : Store :=
  { events := [⟨genId 0,
      { title := "T", description := "P\n\nEvent Time: 10:00", date := "2099-01-02",
        location := "L", capacity := 5, organizer_id := "org1" }, "0"⟩]
    nextId := 1 }

/-- Witness for C1 (amended): a successful insert into an empty event
leaves 1 ≤ 5 confirmed RSVPs. -/
theorem c1_witness :
    (confirmedCount
      (createRSVP (envAt 1000) (stFresh c1WitnessStore) ⟨genId 0, "A", "a@x.com"⟩).st.store
      (genId 0) : Int) ≤ 5 :=
  c1_capacity_invariant_fresh_cache.1 (envAt 1000) c1WitnessStore ⟨genId 0, "A", "a@x.com"⟩
    ⟨genId 0,
      { title := "T", description := "P\n\nEvent Time: 10:00", date := "2099-01-02",
        location := "L", capacity := 5, organizer_id := "org1" }, "0"⟩
    ⟨genId 1, genId 0, "A", "a@x.com", .confirmed, "0", "0"⟩
    (by decide) rfl rfl rfl rfl rfl rfl
    (by decide) (by decide) (by decide) rfl (by decide) rfl

/-! ## Claim C2: create/read round trip (corrected) -/

/-- Modelled from the claim's words: a creation payload whose date is a
real `YYYY-MM-DD` calendar date and whose time is an `HH:MM` time of day
(title, description, location, capacity, organizer unconstrained).  This
is the refinement-side validity notion the claim quantifies over. -/
def ValidCreationPayload (r : CreateEventRequest) : Prop :=
  ∃ y m d hh mi : Nat,
    y ≤ 9999 ∧ validYMD y m d = true ∧ hh ≤ 23 ∧ mi ≤ 59 ∧
    r.date = fmtYMD y m d ∧ r.time = fmtHM hh mi

/-- A valid payload whose description carries trailing whitespace. -/
def c2Req : CreateEventRequest := ⟨"T", "a ", "2025-06-15", "10:00", "L", 5, "org1"⟩

/-- Counterexample to C2 as stated: the round trip strips the
description's trailing whitespace (the read path calls `trim` after
removing the embedded time marker), so a valid payload with description
`"a "` reads back as `"a"`. -/
theorem c2_counterexample :
    ValidCreationPayload c2Req ∧
      (match (createEvent (envAt 0) {} c2Req).val with
       | .ok ev => ev.description
       | .error _ => "") = "a" ∧
      c2Req.description = "a " ∧ ("a" : String) ≠ "a " :=
  ⟨⟨2025, 6, 15, 10, 0, by decide, by decide, by decide, by decide, rfl, rfl⟩,
   rfl, rfl, by decide⟩

theorem digitChar_isDigit (k : Nat) : isDigitJS (digitChar k) = true := by
  unfold digitChar
  split <;> rfl

theorem digit_ne (c x : Char) (h : isDigitJS c = true) (hx : isDigitJS x = false) : c ≠ x := by
  intro hc
  subst hc
  rw [h] at hx
  exact absurd hx (by simp)

theorem digit_not_ws (c : Char) (h : isDigitJS c = true) : isWsJS c = false := by
  cases hw : isWsJS c
  · rfl
  · exfalso
    simp [isWsJS] at hw
    rcases hw with ((((rfl | rfl) | rfl) | rfl) | rfl) | rfl <;> exact absurd h (by decide)

theorem natToCharsAux_all_digits : ∀ (fuel n : Nat),
    (natToCharsAux fuel n).all isDigitJS = true := by
  intro fuel
  induction fuel with
  | zero => intro n; rfl
  | succ f ih =>
    intro n
    unfold natToCharsAux
    split
    · simp [digitChar_isDigit]
    · simp [List.all_append, ih, digitChar_isDigit]

theorem natToChars_all_digits (n : Nat) : (natToChars n).all isDigitJS = true :=
  natToCharsAux_all_digits (n + 1) n

theorem natToCharsAux_ne_nil : ∀ (fuel n : Nat), 0 < fuel → natToCharsAux fuel n ≠ [] := by
  intro fuel n h
  cases fuel with
  | zero => omega
  | succ f =>
    unfold natToCharsAux
    split
    · simp
    · simp

theorem charsVal_cons_zero (l : List Char) : charsVal ('0' :: l) = charsVal l := rfl

theorem charsVal_append_digit (l : List Char) (c : Char) :
    charsVal (l ++ [c]) = charsVal l * 10 + (c.toNat - 48) := by
  unfold charsVal
  rw [List.foldl_append]
  rfl

theorem digitChar_toNat (k : Nat) (hk : k < 10) : (digitChar k).toNat - 48 = k := by
  interval_cases k <;> rfl

theorem natToCharsAux_val : ∀ (fuel : Nat), ∀ (n : Nat), n < fuel →
    charsVal (natToCharsAux fuel n) = n := by
  intro fuel
  induction fuel with
  | zero => intro n h; omega
  | succ f ih =>
    intro n h
    unfold natToCharsAux
    split
    · rename_i h10
      show charsVal [digitChar n] = n
      unfold charsVal
      simp [digitChar_toNat n h10]
    · rename_i h10
      rw [charsVal_append_digit, ih (n / 10) (by omega), digitChar_toNat (n % 10) (by omega)]
      omega

theorem charsVal_natToChars (n : Nat) : charsVal (natToChars n) = n :=
  natToCharsAux_val (n + 1) n (Nat.lt_succ_self n)

theorem charsVal_replicate_zero : ∀ (k : Nat) (l : List Char),
    charsVal (List.replicate k '0' ++ l) = charsVal l := by
  intro k
  induction k with
  | zero => intro l; rfl
  | succ k ih =>
    intro l
    rw [List.replicate_succ, List.cons_append, charsVal_cons_zero, ih]

theorem charsVal_pad4C (n : Nat) : charsVal (pad4C n) = n := by
  unfold pad4C
  rw [charsVal_replicate_zero, charsVal_natToChars]

theorem pad4C_all_digits (n : Nat) : (pad4C n).all isDigitJS = true := by
  unfold pad4C
  rw [List.all_append]
  have h1 : (List.replicate (4 - (natToChars n).length) '0').all isDigitJS = true := by
    rw [List.all_eq_true]
    intro c hc
    rw [List.eq_of_mem_replicate hc]
    rfl
  rw [h1, natToChars_all_digits]
  rfl

theorem natToChars_of_lt10 (n : Nat) (h : n < 10) : natToChars n = [digitChar n] := by
  unfold natToChars natToCharsAux
  rw [if_pos h]

theorem natToChars_of_lt100 (n : Nat) (h1 : 10 ≤ n) (h2 : n < 100) :
    natToChars n = [digitChar (n / 10), digitChar (n % 10)] := by
  unfold natToChars
  unfold natToCharsAux
  rw [if_neg (by omega)]
  have hfuel : ∃ f, n = f + 1 := ⟨n - 1, by omega⟩
  rcases hfuel with ⟨f, rfl⟩
  unfold natToCharsAux
  rw [if_pos (by omega)]
  rfl

theorem pad2C_shape (n : Nat) (h : n < 100) :
    ∃ k1 k2, k1 < 10 ∧ k2 < 10 ∧ pad2C n = [digitChar k1, digitChar k2] := by
  unfold pad2C
  by_cases h10 : n < 10
  · rw [if_pos h10, natToChars_of_lt10 n h10]
    exact ⟨0, n, by omega, h10, rfl⟩
  · rw [if_neg h10, natToChars_of_lt100 n (by omega) h]
    exact ⟨n / 10, n % 10, by omega, by omega, rfl⟩

theorem charsVal_pad2C (n : Nat) : charsVal (pad2C n) = n := by
  unfold pad2C
  split
  · rw [charsVal_cons_zero, charsVal_natToChars]
  · rw [charsVal_natToChars]

theorem pad2C_all_digits (n : Nat) : (pad2C n).all isDigitJS = true := by
  unfold pad2C
  split
  · simp only [List.all_cons, Bool.and_eq_true]
    exact ⟨rfl, natToChars_all_digits n⟩
  · exact natToChars_all_digits n


theorem splitChar_cons (sep c : Char) (rest : List Char) :
    splitChar sep (c :: rest) =
      match splitChar sep rest with
      | [] => [[]]
      | g :: gs => if c = sep then [] :: g :: gs else (c :: g) :: gs := rfl

theorem splitChar_ne_nil (sep : Char) : ∀ (l : List Char), splitChar sep l ≠ [] := by
  intro l
  cases l with
  | nil => simp [splitChar]
  | cons c rest =>
    rw [splitChar_cons]
    cases h : splitChar sep rest with
    | nil => simp
    | cons g gs =>
      show ¬(if c = sep then [] :: g :: gs else (c :: g) :: gs) = []
      split <;> simp

theorem splitChar_no_sep (sep : Char) : ∀ (l : List Char),
    (∀ c ∈ l, ¬c = sep) → splitChar sep l = [l] := by
  intro l
  induction l with
  | nil => intro; rfl
  | cons a as ih =>
    intro h
    rw [splitChar_cons, ih (fun c hc => h c (List.mem_cons_of_mem a hc))]
    show (if a = sep then [] :: as :: ([] : List (List Char))
          else (a :: as) :: ([] : List (List Char))) = [a :: as]
    rw [if_neg (h a (List.mem_cons_self a as))]

theorem splitChar_append_sep (sep : Char) : ∀ (a b : List Char),
    (∀ c ∈ a, ¬c = sep) → splitChar sep (a ++ sep :: b) = a :: splitChar sep b := by
  intro a
  induction a with
  | nil =>
    intro b _
    show splitChar sep (sep :: b) = [] :: splitChar sep b
    rw [splitChar_cons]
    cases hs : splitChar sep b with
    | nil => exact absurd hs (splitChar_ne_nil sep b)
    | cons g gs =>
      show (if sep = sep then [] :: g :: gs else (sep :: g) :: gs) = [] :: g :: gs
      rw [if_pos rfl]
  | cons x xs ih =>
    intro b h
    show splitChar sep (x :: (xs ++ sep :: b)) = (x :: xs) :: splitChar sep b
    rw [splitChar_cons, ih b (fun c hc => h c (List.mem_cons_of_mem x hc))]
    cases hs : splitChar sep b with
    | nil => exact absurd hs (splitChar_ne_nil sep b)
    | cons g gs =>
      show (if x = sep then [] :: (xs :: g :: gs) else (x :: xs) :: g :: gs) =
        (x :: xs) :: g :: gs
      rw [if_neg (h x (List.mem_cons_self x xs))]

theorem digits_no_sep (l : List Char) (hl : l.all isDigitJS = true)
    (x : Char) (hx : isDigitJS x = false) : ∀ c ∈ l, ¬c = x := by
  intro c hc
  exact digit_ne c x (by rw [List.all_eq_true] at hl; exact hl c hc) hx

theorem jsParseInt_digits (l : List Char) (hne : l ≠ []) (hl : l.all isDigitJS = true) :
    jsParseInt (String.mk l) = some ((charsVal l : Nat) : Int) := by
  unfold jsParseInt
  cases l with
  | nil => exact absurd rfl hne
  | cons c cs =>
    have hc : isDigitJS c = true := by
      rw [List.all_cons, Bool.and_eq_true] at hl; exact hl.1
    have hnws : isWsJS c = false := digit_not_ws c hc
    rw [show (String.mk (c :: cs)).data = c :: cs from rfl]
    rw [List.dropWhile_cons, hnws]
    simp only [Bool.false_eq_true, if_false]
    have htake : (c :: cs).takeWhile isDigitJS = c :: cs := by
      rw [List.takeWhile_eq_self_iff]
      rw [List.all_eq_true] at hl
      exact hl
    have hmatch : (match c :: cs with
        | '-' :: r => (true, r)
        | '+' :: r => (false, r)
        | r => (false, r)) = (false, c :: cs) := by
      split
      · rename_i r heq
        injection heq with h1
        exact absurd h1 (digit_ne c '-' hc (by decide))
      · rename_i r heq
        injection heq with h1
        exact absurd h1 (digit_ne c '+' hc (by decide))
      · rfl
    rw [hmatch]
    simp only [htake]
    rw [if_neg (by simp)]
    rw [if_neg (by simp)]

theorem jsParseIntRender_digits (l : List Char) (hne : l ≠ []) (hl : l.all isDigitJS = true) :
    jsParseIntRender (String.mk l) = String.mk (natToChars (charsVal l)) := by
  unfold jsParseIntRender
  rw [jsParseInt_digits l hne hl]
  show String.mk (intToChars (charsVal l : Nat)) = _
  unfold intToChars
  rw [if_neg (by omega)]
  simp

theorem strData_append (a b : String) : (a ++ b).data = a.data ++ b.data := by
  cases a
  cases b
  rfl

theorem strMk_data (s : String) : String.mk s.data = s := by
  cases s
  rfl

theorem strMk_eq_empty (l : List Char) (h : String.mk l = "") : l = [] :=
  congrArg String.data h

theorem matchYMDb_mem_dash (s : String) (h : matchYMDb s = true) : '-' ∈ s.data := by
  unfold matchYMDb at h
  split at h
  · rename_i a b c d h1 e f h2 g hh hd
    simp only [Bool.and_eq_true, decide_eq_true_eq] at h
    rw [hd]
    have : h1 = '-' := h.1.1.1.1.1.2
    subst this
    simp
  · exact absurd h (by simp)

/-- The `M/D/YYYY` string the service writes, at list level. -/
def renderedDate (m d : Nat) (ys : List Char) : List Char :=
  natToChars m ++ '/' :: (natToChars d ++ '/' :: ys)

theorem renderedDate_chars (m d : Nat) (ys : List Char) (hys : ys.all isDigitJS = true) :
    ∀ c ∈ renderedDate m d ys, isDigitJS c = true ∨ c = '/' := by
  intro c hc
  unfold renderedDate at hc
  rw [List.mem_append] at hc
  rcases hc with hc | hc
  · exact Or.inl ((List.all_eq_true.mp (natToChars_all_digits m)) c hc)
  · rcases List.mem_cons.mp hc with rfl | hc
    · exact Or.inr rfl
    · rw [List.mem_append] at hc
      rcases hc with hc | hc
      · exact Or.inl ((List.all_eq_true.mp (natToChars_all_digits d)) c hc)
      · rcases List.mem_cons.mp hc with rfl | hc
        · exact Or.inr rfl
        · exact Or.inl ((List.all_eq_true.mp hys) c hc)

theorem matchYMDb_renderedDate (m d : Nat) (ys : List Char) (hys : ys.all isDigitJS = true) :
    matchYMDb (String.mk (renderedDate m d ys)) = false := by
  cases hm : matchYMDb (String.mk (renderedDate m d ys))
  · rfl
  · exfalso
    have hmem := matchYMDb_mem_dash _ hm
    rw [show (String.mk (renderedDate m d ys)).data = renderedDate m d ys from rfl] at hmem
    rcases renderedDate_chars m d ys hys '-' hmem with hdig | hslash
    · exact absurd hdig (by decide)
    · exact absurd hslash (by decide)

theorem natToChars_isEmpty (n : Nat) : (natToChars n).isEmpty = false := by
  cases h : natToChars n with
  | nil => exact absurd h (natToCharsAux_ne_nil (n + 1) n (Nat.succ_pos n))
  | cons a l => rfl

theorem pad4C_isEmpty (n : Nat) : (pad4C n).isEmpty = false := by
  cases h : pad4C n with
  | nil =>
    exfalso
    unfold pad4C at h
    rcases List.append_eq_nil.mp h with ⟨-, h2⟩
    exact natToCharsAux_ne_nil (n + 1) n (Nat.succ_pos n) h2
  | cons a l => rfl

theorem jsParseDateToISO_rendered (m d y : Nat) (envtz : Int)
    (hv : validYMD y m d = true) (htz : envtz ≤ 0) :
    jsParseDateToISO (String.mk (renderedDate m d (pad4C y))) envtz =
      some (fmtYMD y m d) := by
  unfold jsParseDateToISO
  rw [show (String.mk (renderedDate m d (pad4C y))).data = renderedDate m d (pad4C y) from rfl]
  unfold renderedDate
  rw [splitChar_append_sep '/' (natToChars m) _
    (digits_no_sep _ (natToChars_all_digits m) '/' (by decide))]
  rw [splitChar_append_sep '/' (natToChars d) _
    (digits_no_sep _ (natToChars_all_digits d) '/' (by decide))]
  rw [splitChar_no_sep '/' (pad4C y) (digits_no_sep _ (pad4C_all_digits y) '/' (by decide))]
  simp only []
  rw [if_pos (by
    simp [natToChars_isEmpty, pad4C_isEmpty, natToChars_all_digits, pad4C_all_digits])]
  rw [charsVal_natToChars, charsVal_natToChars, charsVal_pad4C]
  rw [if_pos hv]
  rw [if_neg (by omega)]

theorem stripPre_refl_append : ∀ (p x : List Char), stripPre p (p ++ x) = some x := by
  intro p
  induction p with
  | nil => intro x; rfl
  | cons a as ih =>
    intro x
    show stripPre (a :: as) (a :: (as ++ x)) = some x
    unfold stripPre
    rw [if_pos rfl]
    exact ih x

theorem stripPre_some_append : ∀ (p l x r : List Char),
    stripPre p l = some r → stripPre p (l ++ x) = some (r ++ x) := by
  intro p
  induction p with
  | nil =>
    intro l x r h
    injection h with h
    subst h
    rfl
  | cons a as ih =>
    intro l x r h
    cases l with
    | nil => exact absurd h (by simp [stripPre])
    | cons c cs =>
      unfold stripPre at h
      split at h
      · rename_i hca
        show stripPre (a :: as) (c :: (cs ++ x)) = some (r ++ x)
        unfold stripPre
        rw [if_pos hca]
        exact ih cs x r h
      · exact absurd h (by simp)

theorem stripPre_append_decomp : ∀ (p l x r : List Char),
    stripPre p (l ++ x) = some r →
    (∃ r', stripPre p l = some r' ∧ r = r' ++ x) ∨
    (∃ p₂, p = l ++ p₂ ∧ stripPre p₂ x = some r) := by
  intro p
  induction p with
  | nil =>
    intro l x r h
    injection h with h
    exact Or.inl ⟨l, rfl, h.symm⟩
  | cons a as ih =>
    intro l x r h
    cases l with
    | nil => exact Or.inr ⟨a :: as, rfl, h⟩
    | cons c cs =>
      rw [List.cons_append] at h
      unfold stripPre at h
      split at h
      · rename_i hca
        rcases ih cs x r h with ⟨r', h1, h2⟩ | ⟨p₂, h1, h2⟩
        · refine Or.inl ⟨r', ?_, h2⟩
          unfold stripPre
          rw [if_pos hca]
          exact h1
        · refine Or.inr ⟨p₂, ?_, h2⟩
          rw [List.cons_append, ← h1, hca]
      · exact absurd h (by simp)

theorem dropWhile_append_nil {q : Char → Bool} : ∀ {a : List Char} (b : List Char),
    a.dropWhile q = [] → (a ++ b).dropWhile q = b.dropWhile q := by
  intro a
  induction a with
  | nil => intro b _; rfl
  | cons c cs ih =>
    intro b h
    rw [List.dropWhile_cons] at h
    rw [List.cons_append, List.dropWhile_cons]
    split at h
    · rename_i hq
      rw [if_pos hq]
      exact ih b h
    · exact absurd h (by simp)

theorem dropWhile_append_cons {q : Char → Bool} : ∀ {a : List Char} (b : List Char)
    {c : Char} {cs : List Char},
    a.dropWhile q = c :: cs → (a ++ b).dropWhile q = c :: (cs ++ b) := by
  intro a
  induction a with
  | nil => intro b c cs h; exact absurd h (by simp)
  | cons d ds ih =>
    intro b c cs h
    rw [List.dropWhile_cons] at h
    rw [List.cons_append, List.dropWhile_cons]
    split at h
    · rename_i hq
      rw [if_pos hq]
      exact ih b h
    · rename_i hq
      rw [if_neg hq]
      injection h with h1 h2
      subst h1
      subst h2
      rfl

theorem matchTimeAt_none_append (a b c d e : Char) (rest x : List Char)
    (h : matchTimeAt (a :: b :: c :: d :: e :: rest) = none) :
    matchTimeAt (a :: b :: c :: d :: e :: (rest ++ x)) = none := by
  have h' : (if (isDigitJS a && isDigitJS b && decide (c = ':') && isDigitJS d && isDigitJS e) = true
      then some [a, b, c, d, e] else none) = (none : Option (List Char)) := h
  show (if (isDigitJS a && isDigitJS b && decide (c = ':') && isDigitJS d && isDigitJS e) = true
      then some [a, b, c, d, e] else none) = (none : Option (List Char))
  exact h'

theorem matchTimeAt_some_shape (l : List Char) (cap : List Char)
    (h : matchTimeAt l = some cap) :
    ∃ a b d e rest, l = a :: b :: ':' :: d :: e :: rest ∧
      isDigitJS a = true ∧ isDigitJS b = true ∧ isDigitJS d = true ∧ isDigitJS e = true := by
  unfold matchTimeAt at h
  split at h
  · rename_i a b c d e rest
    split at h
    · rename_i hcond
      simp only [Bool.and_eq_true, decide_eq_true_eq] at hcond
      obtain ⟨⟨⟨⟨ha, hb⟩, hc⟩, hd⟩, he⟩ := hcond
      subst hc
      exact ⟨a, b, d, e, rest, rfl, ha, hb, hd, he⟩
    · exact absurd h (by simp)
  · exact absurd h (by simp)

theorem matchTimeAt_short_nl (t x : List Char) (hlen : t.length < 5) :
    matchTimeAt (t ++ '\n' :: x) = none := by
  cases hsome : matchTimeAt (t ++ '\n' :: x) with
  | none => rfl
  | some cap =>
    exfalso
    obtain ⟨a, b, d, e, rest, hshape, ha, hb, hd, he⟩ := matchTimeAt_some_shape _ _ hsome
    have hget : (t ++ '\n' :: x)[t.length]? = some '\n' := by
      rw [List.getElem?_append_right (Nat.le_refl _)]
      simp
    rw [hshape] at hget
    have h5 : t.length = 0 ∨ t.length = 1 ∨ t.length = 2 ∨ t.length = 3 ∨ t.length = 4 := by
      omega
    rcases h5 with h5 | h5 | h5 | h5 | h5 <;> rw [h5] at hget <;> simp at hget
    · rw [hget] at ha; exact absurd ha (by decide)
    · rw [hget] at hb; exact absurd hb (by decide)
    · rw [hget] at hd; exact absurd hd (by decide)
    · rw [hget] at he; exact absurd he (by decide)

/-- The exact character suffix `\n\nEvent Time: <T>` that `createEvent`
appends to the description, for a time rendering `T`. -/
def Sfx (T : List Char) : List Char := '\n' :: '\n' :: (etPat ++ ' ' :: T)

theorem stripPre_cons (p c : Char) (ps cs : List Char) :
    stripPre (p :: ps) (c :: cs) = if c = p then stripPre ps cs else none := rfl

theorem stripPre_some_eq : ∀ (p l r : List Char), stripPre p l = some r → l = p ++ r := by
  intro p
  induction p with
  | nil =>
    intro l r h
    injection h
  | cons a as ih =>
    intro l r h
    cases l with
    | nil => exact absurd h (by simp [stripPre])
    | cons c cs =>
      rw [stripPre_cons] at h
      split at h
      · rename_i hca
        rw [List.cons_append, hca, ih cs r h]
      · exact absurd h (by simp)

theorem containsSub_at (p : List Char) : ∀ (a b : List Char),
    containsSub p (a ++ (p ++ b)) = true := by
  intro a
  induction a with
  | nil =>
    intro b
    cases hpb : p ++ b with
    | nil =>
      rcases List.append_eq_nil.mp hpb with ⟨rfl, rfl⟩
      show (stripPre [] []).isSome = true
      rfl
    | cons c cs =>
      show containsSub p (c :: cs) = true
      unfold containsSub
      rw [← hpb, stripPre_refl_append]
      rfl
  | cons x xs ih =>
    intro b
    show containsSub p (x :: (xs ++ (p ++ b))) = true
    unfold containsSub
    rw [ih b, Bool.or_true]

theorem matchTime_drop_append_none (r₀ T : List Char)
    (hmt : matchTimeAt (r₀.dropWhile isWsJS) = none) :
    matchTimeAt ((r₀ ++ Sfx T).dropWhile isWsJS) = none := by
  cases hdw : r₀.dropWhile isWsJS with
  | nil =>
    rw [dropWhile_append_nil (Sfx T) hdw]
    rfl
  | cons c cs =>
    rw [hdw] at hmt
    rw [dropWhile_append_cons (Sfx T) hdw]
    cases cs with
    | nil => exact matchTimeAt_short_nl [c] ('\n' :: (etPat ++ ' ' :: T)) (by simp)
    | cons c2 cs =>
      cases cs with
      | nil => exact matchTimeAt_short_nl [c, c2] ('\n' :: (etPat ++ ' ' :: T)) (by simp)
      | cons c3 cs =>
        cases cs with
        | nil => exact matchTimeAt_short_nl [c, c2, c3] ('\n' :: (etPat ++ ' ' :: T)) (by simp)
        | cons c4 cs =>
          cases cs with
          | nil =>
            exact matchTimeAt_short_nl [c, c2, c3, c4] ('\n' :: (etPat ++ ' ' :: T)) (by simp)
          | cons c5 rest =>
            exact matchTimeAt_none_append c c2 c3 c4 c5 rest (Sfx T) hmt

theorem mm_et_cross (T t : List Char) (h : matchMarkerAt etPat t = none) :
    matchMarkerAt etPat (t ++ Sfx T) = none := by
  cases hsp : stripPre etPat (t ++ Sfx T) with
  | none =>
    unfold matchMarkerAt
    rw [hsp]
  | some r =>
    have hmt : matchTimeAt (r.dropWhile isWsJS) = none := by
      rcases stripPre_append_decomp etPat t (Sfx T) r hsp with ⟨r₀, h1, rfl⟩ | ⟨p₂, h1, h2⟩
      · have hmt0 : matchTimeAt (r₀.dropWhile isWsJS) = none := by
          unfold matchMarkerAt at h
          simp only [h1] at h
          cases hx : matchTimeAt (r₀.dropWhile isWsJS) with
          | none => rfl
          | some cap => simp [hx] at h
        exact matchTime_drop_append_none r₀ T hmt0
      · cases p₂ with
        | nil =>
          have h2' : some (Sfx T) = some r := h2
          injection h2' with hr
          rw [← hr]
          exact rfl
        | cons q qs =>
          exfalso
          have hq : q = '\n' := by
            have h2' : stripPre (q :: qs) ('\n' :: ('\n' :: (etPat ++ ' ' :: T))) = some r := h2
            rw [stripPre_cons] at h2'
            split at h2'
            · rename_i h'
              exact h'.symm
            · exact absurd h2' (by simp)
          have hmem : q ∈ etPat := by
            rw [h1]
            exact List.mem_append_right t (List.mem_cons_self q qs)
          rw [hq] at hmem
          exact absurd hmem (by decide)
    unfold matchMarkerAt
    simp only [hsp, hmt]

theorem findMarker_nil (pat : List Char) :
    findMarker pat [] =
      match matchMarkerAt pat [] with
      | some (cap, len) => some (0, cap, len)
      | none => none := rfl

theorem findMarker_cons (pat : List Char) (c : Char) (rest : List Char) :
    findMarker pat (c :: rest) =
      match matchMarkerAt pat (c :: rest) with
      | some (cap, len) => some (0, cap, len)
      | none => (findMarker pat rest).map fun x => (x.1 + 1, x.2) := rfl

theorem findMarker_cons_none (pat : List Char) (c : Char) (rest : List Char)
    (h : findMarker pat (c :: rest) = none) :
    matchMarkerAt pat (c :: rest) = none ∧ findMarker pat rest = none := by
  rw [findMarker_cons] at h
  cases hm : matchMarkerAt pat (c :: rest) with
  | some x =>
    obtain ⟨cap, len⟩ := x
    simp only [hm] at h
    exact absurd h (by simp)
  | none =>
    simp only [hm] at h
    refine ⟨rfl, ?_⟩
    cases hfm : findMarker pat rest with
    | none => rfl
    | some y =>
      simp only [hfm, Option.map_some'] at h
      exact absurd h (by simp)

theorem findMarker_none_all (pat : List Char) : ∀ (l : List Char),
    findMarker pat l = none → ∀ (pre t : List Char), pre ++ t = l →
    matchMarkerAt pat t = none := by
  intro l
  induction l with
  | nil =>
    intro h pre t hpt
    rcases List.append_eq_nil.mp hpt with ⟨rfl, rfl⟩
    rw [findMarker_nil] at h
    cases hm : matchMarkerAt pat [] with
    | none => rfl
    | some x =>
      obtain ⟨cap, len⟩ := x
      simp only [hm] at h
      exact absurd h (by simp)
  | cons c rest ih =>
    intro h pre t hpt
    obtain ⟨hm, hr⟩ := findMarker_cons_none pat c rest h
    cases pre with
    | nil =>
      have ht : t = c :: rest := hpt
      rw [ht]
      exact hm
    | cons p ps =>
      injection hpt with h1 h2
      exact ih hr ps t h2

theorem mm_nl_cross (T t : List Char) (htne : t ≠ [])
    (hall : ∀ (pre s : List Char), pre ++ s = t → matchMarkerAt etPat s = none) :
    matchMarkerAt nlPat (t ++ Sfx T) = none := by
  cases hsp : stripPre nlPat (t ++ Sfx T) with
  | none =>
    unfold matchMarkerAt
    rw [hsp]
  | some r =>
    have hmt : matchTimeAt (r.dropWhile isWsJS) = none := by
      rcases stripPre_append_decomp nlPat t (Sfx T) r hsp with ⟨r₀, h1, rfl⟩ | ⟨p₂, h1, h2⟩
      · have hteq : t = nlPat ++ r₀ := stripPre_some_eq nlPat t r₀ h1
        have hsuf : matchMarkerAt etPat (etPat ++ r₀) = none := by
          apply hall ['\n', '\n']
          rw [hteq]
          rfl
        have hmt0 : matchTimeAt (r₀.dropWhile isWsJS) = none := by
          unfold matchMarkerAt at hsuf
          simp only [stripPre_refl_append] at hsuf
          cases hx : matchTimeAt (r₀.dropWhile isWsJS) with
          | none => rfl
          | some cap => simp [hx] at hsuf
        exact matchTime_drop_append_none r₀ T hmt0
      · cases p₂ with
        | nil =>
          have h2' : some (Sfx T) = some r := h2
          injection h2' with hr
          rw [← hr]
          exact rfl
        | cons q qs =>
          exfalso
          have hq : q = '\n' ∧ stripPre qs ('\n' :: (etPat ++ ' ' :: T)) = some r := by
            have h2' : stripPre (q :: qs) ('\n' :: ('\n' :: (etPat ++ ' ' :: T))) = some r := h2
            rw [stripPre_cons] at h2'
            split at h2'
            · rename_i h'
              exact ⟨h'.symm, h2'⟩
            · exact absurd h2' (by simp)
          obtain ⟨rfl, h2''⟩ := hq
          cases t with
          | nil => exact absurd rfl htne
          | cons c ts =>
            have h1' : '\n' :: ('\n' :: etPat) = c :: (ts ++ '\n' :: qs) := h1
            injection h1' with _ h1''
            cases ts with
            | nil =>
              have h1''' : '\n' :: etPat = '\n' :: qs := h1''
              injection h1''' with _ hqs
              rw [← hqs] at h2''
              rw [show stripPre etPat ('\n' :: (etPat ++ ' ' :: T)) = none from rfl] at h2''
              exact absurd h2'' (by simp)
            | cons c2 ts2 =>
              have h1''' : '\n' :: etPat = c2 :: (ts2 ++ '\n' :: qs) := h1''
              injection h1''' with _ hx
              have hmem : '\n' ∈ etPat := by
                rw [hx]
                exact List.mem_append_right ts2 (List.mem_cons_self _ _)
              exact absurd hmem (by decide)
    unfold matchMarkerAt
    simp only [hsp, hmt]

theorem findMarker_shift_et (T : List Char) : ∀ (D : List Char),
    findMarker etPat D = none →
    findMarker etPat (D ++ Sfx T) =
      (findMarker etPat (Sfx T)).map fun x => (x.1 + D.length, x.2) := by
  intro D
  induction D with
  | nil =>
    intro _
    cases o : findMarker etPat (Sfx T) <;> simp [o]
  | cons c rest ih =>
    intro h
    obtain ⟨hm, hr⟩ := findMarker_cons_none etPat c rest h
    have hcross : matchMarkerAt etPat (c :: (rest ++ Sfx T)) = none := mm_et_cross T (c :: rest) hm
    rw [show (c :: rest) ++ Sfx T = c :: (rest ++ Sfx T) from rfl]
    rw [findMarker_cons]
    simp only [hcross]
    rw [ih hr]
    cases o : findMarker etPat (Sfx T) <;> simp [o, Nat.add_assoc]

theorem findMarker_shift_nl (T : List Char) : ∀ (D : List Char),
    findMarker etPat D = none →
    findMarker nlPat (D ++ Sfx T) =
      (findMarker nlPat (Sfx T)).map fun x => (x.1 + D.length, x.2) := by
  intro D
  induction D with
  | nil =>
    intro _
    cases o : findMarker nlPat (Sfx T) <;> simp [o]
  | cons c rest ih =>
    intro h
    obtain ⟨hm, hr⟩ := findMarker_cons_none etPat c rest h
    have hcross : matchMarkerAt nlPat (c :: (rest ++ Sfx T)) = none :=
      mm_nl_cross T (c :: rest) (by simp) (findMarker_none_all etPat (c :: rest) h)
    rw [show (c :: rest) ++ Sfx T = c :: (rest ++ Sfx T) from rfl]
    rw [findMarker_cons]
    simp only [hcross]
    rw [ih hr]
    cases o : findMarker nlPat (Sfx T) <;> simp [o, Nat.add_assoc]

theorem matchMarkerAt_of_strip (pat l : List Char) (t1 t2 t3 t4 : Char)
    (h1 : isDigitJS t1 = true) (h2 : isDigitJS t2 = true)
    (h3 : isDigitJS t3 = true) (h4 : isDigitJS t4 = true)
    (hsp : stripPre pat l = some (' ' :: [t1, t2, ':', t3, t4])) :
    matchMarkerAt pat l = some ([t1, t2, ':', t3, t4], pat.length + 6) := by
  have hdw : ((' ' :: [t1, t2, ':', t3, t4]).dropWhile isWsJS) = [t1, t2, ':', t3, t4] := by
    rw [List.dropWhile_cons, if_pos (show isWsJS ' ' = true from rfl), List.dropWhile_cons,
      if_neg (by simp [digit_not_ws t1 h1])]
  have htw : ((' ' :: [t1, t2, ':', t3, t4]).takeWhile isWsJS) = [' '] := by
    rw [List.takeWhile_cons, if_pos (show isWsJS ' ' = true from rfl), List.takeWhile_cons,
      if_neg (by simp [digit_not_ws t1 h1])]
  have hmt : matchTimeAt [t1, t2, ':', t3, t4] = some [t1, t2, ':', t3, t4] := by
    show (if (isDigitJS t1 && isDigitJS t2 && decide ((':' : Char) = ':') && isDigitJS t3 &&
        isDigitJS t4) = true then some [t1, t2, ':', t3, t4] else none) = some [t1, t2, ':', t3, t4]
    rw [if_pos (by simp [h1, h2, h3, h4])]
  unfold matchMarkerAt
  simp only [hsp, hdw, hmt, htw]
  simp [Nat.add_assoc]

theorem fm_sfx_et (t1 t2 t3 t4 : Char)
    (h1 : isDigitJS t1 = true) (h2 : isDigitJS t2 = true)
    (h3 : isDigitJS t3 = true) (h4 : isDigitJS t4 = true) :
    findMarker etPat (Sfx [t1, t2, ':', t3, t4]) = some (2, [t1, t2, ':', t3, t4], 17) := by
  have hA : matchMarkerAt etPat (etPat ++ ' ' :: [t1, t2, ':', t3, t4]) =
      some ([t1, t2, ':', t3, t4], 17) :=
    matchMarkerAt_of_strip etPat (etPat ++ ' ' :: [t1, t2, ':', t3, t4]) t1 t2 t3 t4 h1 h2 h3 h4
      (stripPre_refl_append etPat _)
  have h0 : matchMarkerAt etPat
      ('\n' :: ('\n' :: (etPat ++ ' ' :: [t1, t2, ':', t3, t4]))) = none := rfl
  have h0' : matchMarkerAt etPat ('\n' :: (etPat ++ ' ' :: [t1, t2, ':', t3, t4])) = none := rfl
  show findMarker etPat ('\n' :: ('\n' :: (etPat ++ ' ' :: [t1, t2, ':', t3, t4]))) = _
  rw [findMarker_cons]
  simp only [h0]
  rw [findMarker_cons]
  simp only [h0']
  rw [show etPat ++ ' ' :: [t1, t2, ':', t3, t4] =
    'E' :: ("vent Time:".data ++ ' ' :: [t1, t2, ':', t3, t4]) from rfl]
  rw [findMarker_cons]
  have hA' : matchMarkerAt etPat ('E' :: ("vent Time:".data ++ ' ' :: [t1, t2, ':', t3, t4])) =
      some ([t1, t2, ':', t3, t4], 17) := hA
  simp only [hA']
  rfl

theorem fm_sfx_nl (t1 t2 t3 t4 : Char)
    (h1 : isDigitJS t1 = true) (h2 : isDigitJS t2 = true)
    (h3 : isDigitJS t3 = true) (h4 : isDigitJS t4 = true) :
    findMarker nlPat (Sfx [t1, t2, ':', t3, t4]) = some (0, [t1, t2, ':', t3, t4], 19) := by
  have hsp : stripPre nlPat (Sfx [t1, t2, ':', t3, t4]) =
      some (' ' :: [t1, t2, ':', t3, t4]) := by
    show stripPre ('\n' :: ('\n' :: etPat))
      ('\n' :: ('\n' :: (etPat ++ ' ' :: [t1, t2, ':', t3, t4]))) = _
    rw [stripPre_cons, if_pos (show ('\n' : Char) = '\n' from rfl),
      stripPre_cons, if_pos (show ('\n' : Char) = '\n' from rfl)]
    exact stripPre_refl_append etPat _
  have hC : matchMarkerAt nlPat ('\n' :: ('\n' :: (etPat ++ ' ' :: [t1, t2, ':', t3, t4]))) =
      some ([t1, t2, ':', t3, t4], 19) :=
    matchMarkerAt_of_strip nlPat (Sfx [t1, t2, ':', t3, t4]) t1 t2 t3 t4 h1 h2 h3 h4 hsp
  show findMarker nlPat ('\n' :: ('\n' :: (etPat ++ ' ' :: [t1, t2, ':', t3, t4]))) = _
  rw [findMarker_cons]
  simp only [hC]

theorem extractTime_appended (D : List Char) (t1 t2 t3 t4 : Char)
    (h1 : isDigitJS t1 = true) (h2 : isDigitJS t2 = true)
    (h3 : isDigitJS t3 = true) (h4 : isDigitJS t4 = true)
    (hmark : findMarker etPat D = none) :
    extractTime (String.mk (D ++ Sfx [t1, t2, ':', t3, t4])) =
      some (String.mk [t1, t2, ':', t3, t4]) := by
  unfold extractTime
  rw [show (String.mk (D ++ Sfx [t1, t2, ':', t3, t4])).data =
    D ++ Sfx [t1, t2, ':', t3, t4] from rfl]
  rw [findMarker_shift_et _ D hmark, fm_sfx_et t1 t2 t3 t4 h1 h2 h3 h4]
  rfl

theorem replaceFirstNl_appended (D : List Char) (t1 t2 t3 t4 : Char)
    (h1 : isDigitJS t1 = true) (h2 : isDigitJS t2 = true)
    (h3 : isDigitJS t3 = true) (h4 : isDigitJS t4 = true)
    (hmark : findMarker etPat D = none) :
    replaceFirstNl (String.mk (D ++ Sfx [t1, t2, ':', t3, t4])) = String.mk D := by
  unfold replaceFirstNl
  rw [show (String.mk (D ++ Sfx [t1, t2, ':', t3, t4])).data =
    D ++ Sfx [t1, t2, ':', t3, t4] from rfl]
  rw [findMarker_shift_nl _ D hmark, fm_sfx_nl t1 t2 t3 t4 h1 h2 h3 h4]
  simp only [Option.map_some']
  show String.mk ((D ++ Sfx [t1, t2, ':', t3, t4]).take (0 + D.length) ++
    (D ++ Sfx [t1, t2, ':', t3, t4]).drop (0 + D.length + 19)) = String.mk D
  rw [Nat.zero_add, List.take_left]
  rw [show D.length + 19 = (D ++ Sfx [t1, t2, ':', t3, t4]).length from by
    simp [List.length_append]
    rfl]
  rw [List.drop_length, List.append_nil]

theorem pad2C_ne_nil (n : Nat) : pad2C n ≠ [] := by
  unfold pad2C
  split
  · simp
  · exact natToCharsAux_ne_nil (n + 1) n (Nat.succ_pos n)

theorem fmtHM_shape (hh mi : Nat) (h1 : hh < 100) (h2 : mi < 100) :
    ∃ t1 t2 t3 t4,
      (fmtHM hh mi).data = [t1, t2, ':', t3, t4] ∧
      isDigitJS t1 = true ∧ isDigitJS t2 = true ∧
      isDigitJS t3 = true ∧ isDigitJS t4 = true := by
  obtain ⟨k1, k2, hk1, hk2, hp1⟩ := pad2C_shape hh h1
  obtain ⟨k3, k4, hk3, hk4, hp2⟩ := pad2C_shape mi h2
  refine ⟨digitChar k1, digitChar k2, digitChar k3, digitChar k4, ?_,
    digitChar_isDigit k1, digitChar_isDigit k2, digitChar_isDigit k3, digitChar_isDigit k4⟩
  show pad2C hh ++ ':' :: pad2C mi = _
  rw [hp1, hp2]
  rfl

/-- The record fields `createEvent` writes to the store for a request that
does not use the placeholder organizer (zeta-expanded from the source's
`eventDate` / `fields` locals). -/
def createdEventFields (req : CreateEventRequest) : EventFields :=
  { title := req.title
    description := req.description ++ "\n\nEvent Time: " ++ req.time
    date := jsParseIntRender (String.mk ((splitChar '-' req.date.data).getD 1 "undefined".data)) ++
      "/" ++
      jsParseIntRender (String.mk ((splitChar '-' req.date.data).getD 2 "undefined".data)) ++
      "/" ++ String.mk ((splitChar '-' req.date.data).getD 0 [])
    location := req.location
    capacity := req.capacity
    organizer_id := req.organizerId }

theorem createEventBody_val (env : Env) (req : CreateEventRequest)
    (horg : req.organizerId ≠ "temp-organizer-id") (s : St) :
    (createEventBody env req s).val =
      .ok (transformEventFromAirtable env ⟨genId s.store.nextId, createdEventFields req, "0"⟩) := by
  unfold createEventBody
  rw [if_neg horg]
  rfl

theorem transform_created (env : Env) (req : CreateEventRequest) (i ct : String)
    (y m d hh mi : Nat)
    (hv : validYMD y m d = true) (htz : env.tz ≤ 0)
    (hdate : req.date = fmtYMD y m d) (htime : req.time = fmtHM hh mi)
    (hhh : hh ≤ 23) (hmi : mi ≤ 59)
    (htrim : trimJS req.description = req.description)
    (hmark : findMarker etPat req.description.data = none) :
    transformEventFromAirtable env ⟨i, createdEventFields req, ct⟩ =
      { id := i
        title := req.title
        description := req.description
        date := req.date
        time := req.time
        location := req.location
        capacity := req.capacity
        organizerId := req.organizerId
        createdAt := ct
        updatedAt := ct
        shareLink := (match env.origin with | some o => o | none => "") ++ "/events/" ++ i } := by
  obtain ⟨t1, t2, t3, t4, htd, hd1, hd2, hd3, hd4⟩ := fmtHM_shape hh mi (by omega) (by omega)
  have htdata : req.time.data = [t1, t2, ':', t3, t4] := by rw [htime]; exact htd
  have hfd : (fmtYMD y m d).data = pad4C y ++ '-' :: (pad2C m ++ '-' :: pad2C d) := by
    show pad4C y ++ '-' :: pad2C m ++ '-' :: pad2C d = pad4C y ++ '-' :: (pad2C m ++ '-' :: pad2C d)
    simp [List.append_assoc, List.cons_append]
  have hsplit : splitChar '-' req.date.data = [pad4C y, pad2C m, pad2C d] := by
    rw [hdate, hfd]
    rw [splitChar_append_sep '-' (pad4C y) _ (digits_no_sep _ (pad4C_all_digits y) '-' (by decide))]
    rw [splitChar_append_sep '-' (pad2C m) _ (digits_no_sep _ (pad2C_all_digits m) '-' (by decide))]
    rw [splitChar_no_sep '-' (pad2C d) (digits_no_sep _ (pad2C_all_digits d) '-' (by decide))]
  have hslash : ("/" : String).data = ['/'] := rfl
  have hed : (createdEventFields req).date = String.mk (renderedDate m d (pad4C y)) := by
    show jsParseIntRender (String.mk ((splitChar '-' req.date.data).getD 1 "undefined".data)) ++
      "/" ++
      jsParseIntRender (String.mk ((splitChar '-' req.date.data).getD 2 "undefined".data)) ++
      "/" ++ String.mk ((splitChar '-' req.date.data).getD 0 []) = _
    rw [hsplit]
    rw [show ([pad4C y, pad2C m, pad2C d].getD 1 "undefined".data) = pad2C m from rfl,
        show ([pad4C y, pad2C m, pad2C d].getD 2 "undefined".data) = pad2C d from rfl,
        show ([pad4C y, pad2C m, pad2C d].getD 0 []) = pad4C y from rfl]
    rw [jsParseIntRender_digits (pad2C m) (pad2C_ne_nil m) (pad2C_all_digits m),
        jsParseIntRender_digits (pad2C d) (pad2C_ne_nil d) (pad2C_all_digits d)]
    rw [charsVal_pad2C, charsVal_pad2C]
    apply String.ext
    simp [strData_append, hslash, renderedDate, List.append_assoc]
  have hedne : ¬((createdEventFields req).date = "") := by
    rw [hed]
    intro hcon
    have hnil : renderedDate m d (pad4C y) = [] := congrArg String.data hcon
    unfold renderedDate at hnil
    rcases List.append_eq_nil.mp hnil with ⟨hnil1, -⟩
    exact natToCharsAux_ne_nil (m + 1) m (Nat.succ_pos m) hnil1
  have hymd : matchYMDb (createdEventFields req).date = false := by
    rw [hed]
    exact matchYMDb_renderedDate m d (pad4C y) (pad4C_all_digits y)
  have hiso : jsParseDateToISO (createdEventFields req).date env.tz = some (fmtYMD y m d) := by
    rw [hed]
    exact jsParseDateToISO_rendered m d y env.tz hv htz
  have hdd : (createdEventFields req).description.data =
      req.description.data ++ Sfx [t1, t2, ':', t3, t4] := by
    show (req.description ++ "\n\nEvent Time: " ++ req.time).data = _
    rw [strData_append, strData_append, htdata, List.append_assoc]
    rfl
  have hds : (createdEventFields req).description =
      String.mk (req.description.data ++ Sfx [t1, t2, ':', t3, t4]) := by
    rw [← hdd, strMk_data]
  have hcont : containsSub etPat (createdEventFields req).description.data = true := by
    rw [hdd]
    have hca := containsSub_at etPat (req.description.data ++ ['\n', '\n'])
      (' ' :: [t1, t2, ':', t3, t4])
    rw [List.append_assoc] at hca
    exact hca
  have hext : extractTime (createdEventFields req).description = some req.time := by
    rw [hds, extractTime_appended _ t1 t2 t3 t4 hd1 hd2 hd3 hd4 hmark]
    rw [← htdata, strMk_data]
  have hrep : trimJS (replaceFirstNl (createdEventFields req).description) = req.description := by
    rw [hds, replaceFirstNl_appended _ t1 t2 t3 t4 hd1 hd2 hd3 hd4 hmark, strMk_data]
    exact htrim
  unfold transformEventFromAirtable
  simp only [if_neg hedne, hymd, hiso, hcont, hext, hrep, Bool.false_eq_true, if_false, if_true]
  rw [← hdate]
  rfl

/-- C2 (amended).  For every valid creation payload whose description is
already trimmed and does not contain an embedded `Event Time: HH:MM`
marker, posted by a client at a non-positive UTC offset under a real
organizer id, a successful `createEvent` returns an entity whose
user-supplied fields all round-trip intact. -/
theorem c2_roundtrip_amended (env : Env) (st : St) (req : CreateEventRequest) (ev : Event)
    (hval : ValidCreationPayload req)
    (htrim : trimJS req.description = req.description)
    (hmark : findMarker etPat req.description.data = none)
    (htz : env.tz ≤ 0)
    (horg : req.organizerId ≠ "temp-organizer-id")
    (hok : (createEvent env st req).val = .ok ev) :
    ev.title = req.title ∧ ev.description = req.description ∧ ev.date = req.date ∧
    ev.time = req.time ∧ ev.location = req.location ∧ ev.capacity = req.capacity := by
  obtain ⟨y, m, d, hh, mi, hy, hv, hhh, hmi, hdate, htime⟩ := hval
  unfold createEvent at hok
  rw [wrappedRun] at hok
  cases hcb : checkCB st.cb env.now with
  | error e =>
    rw [hcb] at hok
    simp at hok
  | ok cb' =>
    rw [hcb] at hok
    have hbv := createEventBody_val env req horg { st with cb := cb' }
    simp only [hbv] at hok
    injection hok with h
    rw [transform_created env req _ "0" y m d hh mi hv htz hdate htime hhh hmi htrim hmark] at h
    rw [← h]
    exact ⟨rfl, rfl, rfl, rfl, rfl, rfl⟩

/-- A valid, already-trimmed, marker-free payload for the round-trip
witness. -/
def c2wReq : CreateEventRequest := ⟨"T", "a", "2025-06-15", "10:00", "L", 5, "org1"⟩

/-- The entity `createEvent` returns for `c2wReq` on a fresh state. -/
def c2wEv : Event :=
  { id := "rec00000000000000"
    title := "T"
    description := "a"
    date := "2025-06-15"
    time := "10:00"
    location := "L"
    capacity := 5
    organizerId := "org1"
    createdAt := "0"
    updatedAt := "0"
    shareLink := "/events/rec00000000000000" }

/-- Witness for C2 (amended): the hypotheses hold at `c2wReq` on a fresh
state and the round trip preserves every user-supplied field. -/
theorem c2_witness :
    c2wEv.title = c2wReq.title ∧ c2wEv.description = c2wReq.description ∧
    c2wEv.date = c2wReq.date ∧ c2wEv.time = c2wReq.time ∧
    c2wEv.location = c2wReq.location ∧ c2wEv.capacity = c2wReq.capacity :=
  c2_roundtrip_amended (envAt 0) {} c2wReq c2wEv
    ⟨2025, 6, 15, 10, 0, by decide, by decide, by decide, by decide, rfl, rfl⟩
    rfl rfl (by decide) (by decide) rfl
